import Mathlib

/-!
Shallow embedding of the terrain streaming subsystem of the repository
(src/terrain/chunk.rs): height-map generation, mesh triangulation, and the
chunk store / load scheduler / completion-channel state machine.

Modelling conventions:
* f32 arithmetic is embedded as exact real arithmetic; the reference-point
  position is a pair of rationals so that grid snapping stays executable.
* Chunk coordinates are integer points.  The comparison of a Euclidean
  distance with max_range is embedded through squared integer distances,
  and the LOD formula floor(d / max_range * (len - 1)) is embedded through
  Nat.sqrt on squared distances; bridge lemmas relate both encodings to the
  real-number formulas of the source.
* The completion channel is the list of results of all dispatched jobs;
  draining applies every buffered result, exactly like the try_iter loop of
  update_chunks.  Synchronous first-tick execution and asynchronous workers
  both deliver to the channel; claims about drained (quiescent) states are
  stated after a drain.
* The external collaborators (Commands / entity spawning, the mesh asset
  registry, and the collision-shape component) are modelled as an explicit
  engine state carried inside the scheduler state: entities are an
  association list from entity id to the chunk-relevant components, and
  mesh-asset handles are consecutive naturals handed out by adds.
-/

/-- The finite-difference step of the normal estimation (source: EPSILON). -/
def EPSILON : ℝ := 0.05

/-- HeightMap (source: struct HeightMap): heights and per-sample normals. -/
structure HeightMap where
  size : ℝ
  row_size : ℕ
  heights : List (List ℝ)
  normals : List (List (ℝ × ℝ × ℝ))

/-- glam's Vec3::normalize_or_zero under exact real semantics: normalize,
or return the zero vector when the length is zero. -/
noncomputable def normalizeOrZero (v : ℝ × ℝ × ℝ) : ℝ × ℝ × ℝ :=
  open Classical in
  if Real.sqrt (v.1 ^ 2 + v.2.1 ^ 2 + v.2.2 ^ 2) = 0 then (0, 0, 0)
  else (v.1 / Real.sqrt (v.1 ^ 2 + v.2.1 ^ 2 + v.2.2 ^ 2),
        v.2.1 / Real.sqrt (v.1 ^ 2 + v.2.1 ^ 2 + v.2.2 ^ 2),
        v.2.2 / Real.sqrt (v.1 ^ 2 + v.2.1 ^ 2 + v.2.2 ^ 2))

/-- The per-sample normal of HeightMap::generate: the vector
(h - f(p + (eps,0)), eps, h - f(p + (0,eps))) normalized.  The source
computes h = f p once and reuses it; f is pure, so recomputing is equal. -/
noncomputable def sampleNormal (f : ℝ × ℝ → ℝ) (p : ℝ × ℝ) : ℝ × ℝ × ℝ :=
  normalizeOrZero
    (f p - f (p.1 + EPSILON, p.2), EPSILON, f p - f (p.1, p.2 + EPSILON))

/-- HeightMap::generate: sample f on a row_size × row_size grid spanning
[-size/2, size/2]² around offset, with finite-difference normals. -/
noncomputable def HeightMap.generate (offset : ℝ × ℝ) (size : ℝ)
    (row_size : ℕ) (f : ℝ × ℝ → ℝ) : HeightMap :=
  let factor : ℝ := 1 / ((row_size - 1 : ℕ) : ℝ) * size
  let half_size : ℝ := size / 2
  { size := size
    row_size := row_size
    heights := (List.range row_size).map fun x_i : ℕ =>
      (List.range row_size).map fun z_i : ℕ =>
        f (offset.1 + ((x_i : ℝ) * factor - half_size),
           offset.2 + ((z_i : ℝ) * factor - half_size))
    normals := (List.range row_size).map fun x_i : ℕ =>
      (List.range row_size).map fun z_i : ℕ =>
        sampleNormal f (offset.1 + ((x_i : ℝ) * factor - half_size),
                        offset.2 + ((z_i : ℝ) * factor - half_size)) }

/-- The output of HeightMap::generate_mesh: the four vertex-attribute /
index buffers inserted into the bevy Mesh. -/
structure MeshData where
  positions : List (ℝ × ℝ × ℝ)
  normals : List (ℝ × ℝ × ℝ)
  uvs : List (ℝ × ℝ)
  indices : List ℕ

/-- HeightMap::generate_mesh.  The source fills all four buffers in one
x_i/z_i double loop; the embedding splits the same double loop per buffer,
preserving push order.  Triangle indices are emitted only when x_i > 0 and
z_i > 0, with j = z_i * row_size + x_i and i = j - row_size, pushing
i-1, j, j-1, i-1, i, j (u32 arithmetic embedded as ℕ; no subtraction
underflows since x_i, z_i ≥ 1). -/
noncomputable def HeightMap.generate_mesh (hm : HeightMap) : MeshData :=
  let rs := hm.row_size
  let factor : ℝ := 1 / ((rs - 1 : ℕ) : ℝ) * hm.size
  let half_size : ℝ := hm.size / 2
  { positions := (List.range rs).flatMap fun x_i : ℕ =>
      (List.range rs).map fun z_i : ℕ =>
        ((x_i : ℝ) * factor - half_size,
         (hm.heights.getD x_i []).getD z_i 0,
         (z_i : ℝ) * factor - half_size)
    normals := (List.range rs).flatMap fun x_i : ℕ =>
      (List.range rs).map fun z_i : ℕ =>
        (hm.normals.getD x_i []).getD z_i (0, 0, 0)
    uvs := (List.range rs).flatMap fun x_i : ℕ =>
      (List.range rs).map fun z_i : ℕ =>
        ((x_i : ℝ) * factor - half_size, (z_i : ℝ) * factor - half_size)
    indices := (List.range rs).flatMap fun x_i =>
      (List.range rs).flatMap fun z_i =>
        if 0 < x_i ∧ 0 < z_i then
          [z_i * rs + x_i - rs - 1, z_i * rs + x_i, z_i * rs + x_i - 1,
           z_i * rs + x_i - rs - 1, z_i * rs + x_i - rs, z_i * rs + x_i]
        else [] }

/-- Squared Euclidean distance between two integer chunk coordinates.
The source compares f32 distances; for integer points, comparing squared
distances with squared ranges is the exact-real equivalent. -/
def distSqN (a b : ℤ × ℤ) : ℕ := (a.1 - b.1).natAbs ^ 2 + (a.2 - b.2).natAbs ^ 2

/-- Snap the reference point to the chunk grid (source:
Vec2::floor(center / chunk_size) * chunk_size, then as_ivec2). -/
def snapCenter (center : ℚ × ℚ) (chunk_size : ℕ) : ℤ × ℤ :=
  (⌊center.1 / (chunk_size : ℚ)⌋ * chunk_size,
   ⌊center.2 / (chunk_size : ℚ)⌋ * chunk_size)

/-- The LOD index of a chunk whose squared distance from the snapped
center is d2 (source: (d / max_range * (detail.len() - 1)).floor()).
For a natural max_range, floor(sqrt d2 / max_range * (n - 1)) equals
Nat.sqrt (d2 * (n-1)^2) / max_range; see lodOf_eq_floor. -/
def lodOf (d2 : ℕ) (max_range : ℕ) (numLevels : ℕ) : ℕ :=
  Nat.sqrt (d2 * (numLevels - 1) ^ 2) / max_range

/-- Source: f32::ceil(max_range / chunk_size) as i32. -/
def chunkRange (max_range chunk_size : ℕ) : ℕ :=
  (max_range + chunk_size - 1) / chunk_size

/-- The nested loop `for x in -chunk_range..chunk_range { for z in ... }`
of load_chunks: all offset pairs in the half-open square [-r, r)², x
outermost. -/
def coordOffsets (r : ℕ) : List (ℤ × ℤ) :=
  ((List.range (2 * r)).product (List.range (2 * r))).map
    fun ab => ((ab.1 : ℤ) - r, (ab.2 : ℤ) - r)

/-- The candidate coordinate reached from the snapped center by an offset
(source: p_i = center_chunk + IVec2::new(x * chunk_size, z * chunk_size)). -/
def toCoord (cc : ℤ × ℤ) (chunk_size : ℕ) (o : ℤ × ℤ) : ℤ × ℤ :=
  (cc.1 + o.1 * chunk_size, cc.2 + o.2 * chunk_size)

/-- The coordinates load_chunks enumerates that pass the distance guard
(d ≤ max_range), in enumeration order. -/
def candidates (cc : ℤ × ℤ) (chunk_size max_range : ℕ) : List (ℤ × ℤ) :=
  ((coordOffsets (chunkRange max_range chunk_size)).filter
    fun o => distSqN cc (toCoord cc chunk_size o) ≤ max_range ^ 2).map
    (toCoord cc chunk_size)

/-- A resident chunk (source: struct TerrainChunk): its current LOD, the
handle of its current mesh asset, and its owned entity (world object). -/
structure TerrainChunk where
  lod : ℕ
  mesh : ℕ
  entity : ℕ
  deriving DecidableEq

/-- A completed generation result (source: struct ChunkUpdate). -/
structure ChunkUpdate where
  position : ℤ × ℤ
  height_map : HeightMap
  mesh : MeshData
  lod : ℕ

/-- The chunk-relevant components of a spawned chunk entity: the mesh
handle, the HeightField collision shape (its heights and its size), and
the transform set at spawn time (Transform::from_xyz(p.x, 0, p.y)). -/
structure EntityData where
  meshHandle : ℕ
  heights : List (List ℝ)
  collisionSize : ℝ × ℝ
  transform : ℝ × ℝ × ℝ

/-- The external engine state the scheduler mutates through Commands,
Assets of Mesh and the mesh/collision query: spawned entities (association
list id → components, ids handed out by a counter) and the mesh asset
registry (handles handed out by a counter). -/
structure Engine where
  nextEntity : ℕ
  entities : List (ℕ × EntityData)
  nextMesh : ℕ
  meshAssets : List (ℕ × MeshData)

/-- The scheduler resource (source: struct TerrainChunks) together with
the engine state it drives.  The sender/receiver pair is modelled as the
list of results of all dispatched jobs (see the module comment). -/
structure TerrainChunks where
  chunk_size : ℕ
  max_range : ℕ
  detail : List ℕ
  heightFn : ℝ × ℝ → ℝ
  channel : List ChunkUpdate
  queue : Finset (ℤ × ℤ)
  chunks : List ((ℤ × ℤ) × TerrainChunk)
  world : Engine

/-- Find in an association list (HashMap::get / Query::get_mut). -/
def assocFind {α β : Type} [DecidableEq α] : List (α × β) → α → Option β
  | [], _ => none
  | kv :: t, a => if kv.1 = a then some kv.2 else assocFind t a

/-- Update the value at a key of an association list in place. -/
def assocUpdate {α β : Type} [DecidableEq α] (l : List (α × β)) (a : α)
    (v : β) : List (α × β) :=
  l.map fun kv => if kv.1 = a then (a, v) else kv

/-- Update the value at a key of an association list in place, from the
old value (Query::get_mut followed by component mutation). -/
def assocModify {α β : Type} [DecidableEq α] (l : List (α × β)) (a : α)
    (g : β → β) : List (α × β) :=
  l.map fun kv => if kv.1 = a then (kv.1, g kv.2) else kv

/-- TerrainChunks::default (with the job closure's captured height
function made explicit): empty store, empty pending set, fresh channel. -/
def initState (chunk_size max_range : ℕ) (detail : List ℕ)
    (f : ℝ × ℝ → ℝ) : TerrainChunks :=
  { chunk_size := chunk_size
    max_range := max_range
    detail := detail
    heightFn := f
    channel := []
    queue := ∅
    chunks := []
    world := { nextEntity := 0, entities := [], nextMesh := 0, meshAssets := [] } }

/-- The default configuration of TerrainChunks::default. -/
def defaultState (f : ℝ × ℝ → ℝ) : TerrainChunks :=
  initState 50 2000 [75, 50, 25, 15, 10, 5, 3] f

/-- The body of the job closure of load_chunks: generate the height map
for the chunk at p_i with the detail of the given lod, triangulate it, and
send the ChunkUpdate. -/
noncomputable def dispatchJob (f : ℝ × ℝ → ℝ) (chunk_size : ℕ)
    (detail : List ℕ) (p_i : ℤ × ℤ) (lod : ℕ) : ChunkUpdate :=
  let p : ℝ × ℝ := ((p_i.1 : ℝ), (p_i.2 : ℝ))
  let hm := HeightMap.generate p (chunk_size : ℝ) (detail.getD lod 0) f
  { position := p_i, height_map := hm, mesh := hm.generate_mesh, lod := lod }

/-- Does the store hold this coordinate at exactly this lod
(source: if let Some(chunk) = self.chunks.get(&p_i) { chunk.lod == lod })? -/
def hasLod (chunks : List ((ℤ × ℤ) × TerrainChunk)) (p : ℤ × ℤ)
    (lod : ℕ) : Bool :=
  match assocFind chunks p with
  | some c => c.lod == lod
  | none => false

/-- One iteration of the load_chunks double loop at offset o: skip when
out of range or already pending; skip when resident at the same lod;
otherwise mark pending and dispatch a generation job.  The first_load
flag of the source only decides whether the job body runs inline or on
the task pool; in this embedding both deliver the result to the channel. -/
noncomputable def loadStep (cc : ℤ × ℤ) (s : TerrainChunks)
    (o : ℤ × ℤ) : TerrainChunks :=
  let p_i := toCoord cc s.chunk_size o
  let d2 := distSqN cc p_i
  let lod := lodOf d2 s.max_range s.detail.length
  if d2 > s.max_range ^ 2 ∨ p_i ∈ s.queue then s
  else if hasLod s.chunks p_i lod then s
  else
    { s with
      queue := insert p_i s.queue
      channel :=
        s.channel ++ [dispatchJob s.heightFn s.chunk_size s.detail p_i lod] }

/-- TerrainChunks::load_chunks. -/
noncomputable def TerrainChunks.load_chunks (center : ℚ × ℚ)
    (s : TerrainChunks) : TerrainChunks :=
  let cc := snapCenter center s.chunk_size
  (coordOffsets (chunkRange s.max_range s.chunk_size)).foldl (loadStep cc) s

/-- TerrainChunks::unload_chunks: retain the chunks within max_range of
the re-snapped center, despawning the entities of the evicted chunks. -/
def TerrainChunks.unload_chunks (center : ℚ × ℚ)
    (s : TerrainChunks) : TerrainChunks :=
  let cc := snapCenter center s.chunk_size
  let keep := s.chunks.filter fun pc => distSqN cc pc.1 ≤ s.max_range ^ 2
  let gone := s.chunks.filter fun pc => ¬ distSqN cc pc.1 ≤ s.max_range ^ 2
  { s with
    chunks := keep
    world :=
      { s.world with
        entities := s.world.entities.filter
          fun e => ¬ (gone.map fun pc => pc.2.entity).contains e.1 } }

/-- The body of the result-draining loop of update_chunks: register the
mesh asset, remove the coordinate from the pending set, then either update
the resident chunk in place (lod, mesh handle, and the entity's mesh and
HeightField heights) or spawn a fresh entity at the chunk's world offset
and insert a new resident chunk. -/
def consume (s : TerrainChunks) (u : ChunkUpdate) : TerrainChunks :=
  let handle := s.world.nextMesh
  let world1 :=
    { s.world with
      nextMesh := s.world.nextMesh + 1
      meshAssets := s.world.meshAssets ++ [(handle, u.mesh)] }
  let queue1 := s.queue.erase u.position
  match assocFind s.chunks u.position with
  | some chunk =>
    { s with
      queue := queue1
      chunks := assocUpdate s.chunks u.position
        { lod := u.lod, mesh := handle, entity := chunk.entity }
      world :=
        { world1 with
          entities := assocModify world1.entities chunk.entity fun d =>
            { d with meshHandle := handle,
                     heights := u.height_map.heights } } }
  | none =>
    let ent := s.world.nextEntity
    { s with
      queue := queue1
      chunks := (u.position,
        { lod := u.lod, mesh := handle, entity := ent }) :: s.chunks
      world :=
        { world1 with
          nextEntity := s.world.nextEntity + 1
          entities := world1.entities ++
            [(ent,
              { meshHandle := handle
                heights := u.height_map.heights
                collisionSize := ((s.chunk_size : ℝ), (s.chunk_size : ℝ))
                transform := ((u.position.1 : ℝ), 0, (u.position.2 : ℝ)) })] } }

/-- The try_iter drain of update_chunks: apply every buffered result. -/
def drainUpdates (s : TerrainChunks) : TerrainChunks :=
  s.channel.foldl consume { s with channel := [] }

/-- TerrainChunks::update_chunks, the per-tick entry point: unload, load,
then drain all available results. -/
noncomputable def TerrainChunks.update_chunks (center : ℚ × ℚ)
    (s : TerrainChunks) : TerrainChunks :=
  drainUpdates (TerrainChunks.load_chunks center
    (TerrainChunks.unload_chunks center s))

/-- The LOD formula of load_chunks over exact rational distances
(source: (d / self.max_range * (self.detail.len() - 1) as f32).floor()). -/
def lodQ (d max_range : ℚ) (numLevels : ℕ) : ℤ :=
  ⌊d / max_range * ((numLevels - 1 : ℕ) : ℚ)⌋

/-- Bridge: the Nat.sqrt encoding of the LOD index agrees with the real
floor formula of the source applied to the true Euclidean distance. -/
lemma lodOf_eq_floor (d2 R n : ℕ) :
    lodOf d2 R n = ⌊Real.sqrt d2 / R * ((n - 1 : ℕ) : ℝ)⌋₊ := by
  set m : ℕ := n - 1 with hm
  have h1 : Real.sqrt d2 * (m : ℝ) = Real.sqrt ((d2 * m ^ 2 : ℕ) : ℝ) := by
    push_cast
    rw [Real.sqrt_mul (by positivity), Real.sqrt_sq (by positivity)]
  rw [div_mul_eq_mul_div, h1, Nat.floor_div_nat,
    Real.nat_floor_real_sqrt_eq_nat_sqrt, lodOf]

/-- Bridge: the squared integer distance is the square of the Euclidean
distance between the two coordinates as real points. -/
lemma distSqN_cast (a b : ℤ × ℤ) :
    (distSqN a b : ℝ) = ((a.1 : ℝ) - b.1) ^ 2 + ((a.2 : ℝ) - b.2) ^ 2 := by
  unfold distSqN
  push_cast [Int.cast_natAbs]
  rw [sq_abs, sq_abs]

/-- Bridge: the distance guard d > max_range of the source is the squared
guard of the embedding. -/
lemma dist_guard_iff (a b : ℤ × ℤ) (R : ℕ) :
    (R : ℝ) < Real.sqrt (distSqN a b) ↔ R ^ 2 < distSqN a b := by
  rw [Real.lt_sqrt (by positivity)]
  exact_mod_cast Iff.rfl

lemma sum_map_const_range (n c : ℕ) :
    ((List.range n).map fun _ => c).sum = n * c := by
  induction n with
  | zero => simp
  | succ k ih =>
    rw [List.range_succ, List.map_append, List.sum_append]
    simp [ih, Nat.succ_mul]

lemma sum_pos_ite (n c : ℕ) :
    ((List.range n).map fun i => if 0 < i then c else 0).sum = (n - 1) * c := by
  induction n with
  | zero => simp
  | succ k ih =>
    rw [List.range_succ, List.map_append, List.sum_append]
    rcases Nat.eq_zero_or_pos k with hk | hk
    · simp [hk]
    · have hs : k - 1 + 1 = k := Nat.succ_pred_eq_of_pos hk
      simp only [ih, List.map_cons, List.map_nil, List.sum_cons, List.sum_nil,
        if_pos hk, add_zero, Nat.succ_sub_one]
      calc (k - 1) * c + c = (k - 1 + 1) * c := by ring
      _ = k * c := by rw [hs]

lemma generate_mesh_indices (hm : HeightMap) :
    hm.generate_mesh.indices =
      (List.range hm.row_size).flatMap fun x_i =>
        (List.range hm.row_size).flatMap fun z_i =>
          if 0 < x_i ∧ 0 < z_i then
            [z_i * hm.row_size + x_i - hm.row_size - 1,
             z_i * hm.row_size + x_i,
             z_i * hm.row_size + x_i - 1,
             z_i * hm.row_size + x_i - hm.row_size - 1,
             z_i * hm.row_size + x_i - hm.row_size,
             z_i * hm.row_size + x_i]
          else [] := rfl

lemma sum_map_ite_and (rs x : ℕ) :
    ((List.range rs).map fun z_i =>
      if 0 < x ∧ 0 < z_i then 6 else 0).sum = if 0 < x then (rs - 1) * 6 else 0 := by
  by_cases hx : 0 < x
  · simp only [hx, true_and, if_pos hx]
    exact sum_pos_ite rs 6
  · simp [hx]

lemma indices_row_length (rs x : ℕ) :
    ((List.range rs).flatMap fun z_i =>
      if 0 < x ∧ 0 < z_i then
        [z_i * rs + x - rs - 1, z_i * rs + x, z_i * rs + x - 1,
         z_i * rs + x - rs - 1, z_i * rs + x - rs, z_i * rs + x]
      else []).length = if 0 < x then (rs - 1) * 6 else 0 := by
  rw [List.length_flatMap]
  have hcong : ((List.range rs).map (List.length ∘ fun z_i =>
      if 0 < x ∧ 0 < z_i then
        [z_i * rs + x - rs - 1, z_i * rs + x, z_i * rs + x - 1,
         z_i * rs + x - rs - 1, z_i * rs + x - rs, z_i * rs + x]
      else (List.nil (α := ℕ)))) =
      (List.range rs).map fun z_i => if 0 < x ∧ 0 < z_i then 6 else 0 := by
    apply List.map_congr_left
    intro z _
    by_cases h : 0 < x ∧ 0 < z <;> simp [h]
  rw [hcong, sum_map_ite_and]

/-- C3: the triangle index list of the generated mesh has exactly
6 * (row_size - 1)^2 entries, every index is below the number of emitted
vertices, and the mesh emits exactly row_size^2 vertices. -/
theorem mesh_index_buffer_sound (hm : HeightMap) (h2 : 2 ≤ hm.row_size) :
    hm.generate_mesh.indices.length = 6 * (hm.row_size - 1) ^ 2 ∧
    (∀ ix ∈ hm.generate_mesh.indices, ix < hm.row_size ^ 2) ∧
    hm.generate_mesh.positions.length = hm.row_size ^ 2 := by
  refine ⟨?_, ?_, ?_⟩
  · rw [generate_mesh_indices, List.length_flatMap]
    have hcong : ((List.range hm.row_size).map (List.length ∘ fun x_i =>
        (List.range hm.row_size).flatMap fun z_i =>
          if 0 < x_i ∧ 0 < z_i then
            [z_i * hm.row_size + x_i - hm.row_size - 1, z_i * hm.row_size + x_i,
             z_i * hm.row_size + x_i - 1,
             z_i * hm.row_size + x_i - hm.row_size - 1,
             z_i * hm.row_size + x_i - hm.row_size, z_i * hm.row_size + x_i]
          else [])) =
        (List.range hm.row_size).map fun x_i =>
          if 0 < x_i then (hm.row_size - 1) * 6 else 0 := by
      apply List.map_congr_left
      intro x _
      exact indices_row_length hm.row_size x
    rw [hcong, sum_pos_ite]
    ring
  · intro ix hix
    rw [generate_mesh_indices] at hix
    simp only [List.mem_flatMap, List.mem_range] at hix
    obtain ⟨x, hx, z, hz, hmem⟩ := hix
    split_ifs at hmem with hP
    · have hxz : z * hm.row_size + x < hm.row_size * hm.row_size := by
        have hz1 : z ≤ hm.row_size - 1 := by omega
        have h1 : z * hm.row_size ≤ (hm.row_size - 1) * hm.row_size :=
          Nat.mul_le_mul_right hm.row_size hz1
        have h2 : (hm.row_size - 1) * hm.row_size + hm.row_size =
            hm.row_size * hm.row_size := by
          have hs : hm.row_size - 1 + 1 = hm.row_size := by omega
          calc (hm.row_size - 1) * hm.row_size + hm.row_size
              = (hm.row_size - 1 + 1) * hm.row_size := by ring
          _ = hm.row_size * hm.row_size := by rw [hs]
        omega
      rw [pow_two]
      revert hmem
      generalize z * hm.row_size + x = J at hxz
      intro hmem
      simp only [List.mem_cons, List.not_mem_nil, or_false] at hmem
      rcases hmem with h | h | h | h | h | h <;> omega
    · simp at hmem
  · show ((List.range hm.row_size).flatMap fun x_i : ℕ =>
      (List.range hm.row_size).map fun z_i : ℕ =>
        ((x_i : ℝ) * (1 / ((hm.row_size - 1 : ℕ) : ℝ) * hm.size) - hm.size / 2,
         (hm.heights.getD x_i []).getD z_i 0,
         (z_i : ℝ) * (1 / ((hm.row_size - 1 : ℕ) : ℝ) * hm.size) -
           hm.size / 2)).length = hm.row_size ^ 2
    rw [List.length_flatMap]
    simp only [Function.comp_def, List.length_map, List.length_range]
    rw [sum_map_const_range, pow_two]

/-- Witness for C3 at a concrete 2 × 2 height map. -/
theorem mesh_index_buffer_sound_witness :
    (HeightMap.mk 2 2 [[0, 0], [0, 0]]
        [[(0, 0, 1), (0, 0, 1)], [(0, 0, 1), (0, 0, 1)]]).generate_mesh.indices.length
        = 6 * (2 - 1) ^ 2 ∧
    (∀ ix ∈ (HeightMap.mk 2 2 [[0, 0], [0, 0]]
        [[(0, 0, 1), (0, 0, 1)], [(0, 0, 1), (0, 0, 1)]]).generate_mesh.indices,
      ix < 2 ^ 2) ∧
    (HeightMap.mk 2 2 [[0, 0], [0, 0]]
        [[(0, 0, 1), (0, 0, 1)], [(0, 0, 1), (0, 0, 1)]]).generate_mesh.positions.length
        = 2 ^ 2 :=
  mesh_index_buffer_sound
    (HeightMap.mk 2 2 [[0, 0], [0, 0]]
      [[(0, 0, 1), (0, 0, 1)], [(0, 0, 1), (0, 0, 1)]]) (by decide)

lemma getD_mem_of_lt {α : Type} (l : List α) (n : ℕ) (d : α)
    (h : n < l.length) : l.getD n d ∈ l := by
  rw [List.getD_eq_getElem?_getD, List.getElem?_eq_getElem h]
  exact List.getElem_mem h

lemma normalizeOrZero_unit (v : ℝ × ℝ × ℝ) (h : v.2.1 ≠ 0) :
    (normalizeOrZero v).1 ^ 2 + (normalizeOrZero v).2.1 ^ 2 +
      (normalizeOrZero v).2.2 ^ 2 = 1 := by
  have hS : 0 < v.1 ^ 2 + v.2.1 ^ 2 + v.2.2 ^ 2 := by positivity
  have hs : Real.sqrt (v.1 ^ 2 + v.2.1 ^ 2 + v.2.2 ^ 2) ≠ 0 :=
    (Real.sqrt_pos.mpr hS).ne'
  unfold normalizeOrZero
  rw [if_neg hs]
  simp only [div_pow]
  rw [div_add_div_same, div_add_div_same, Real.sq_sqrt hS.le, div_self hS.ne']

/-- C7: every normal stored by HeightMap::generate is a unit vector.
The fallback branch of normalize_or_zero is never taken because the
combined vector always has y component EPSILON ≠ 0, so estimation is
total and never stores a non-unit result. -/
theorem generated_normals_unit (offset : ℝ × ℝ) (size : ℝ) (row_size : ℕ)
    (f : ℝ × ℝ → ℝ) :
    ∀ row ∈ (HeightMap.generate offset size row_size f).normals,
      ∀ n ∈ row, n.1 ^ 2 + n.2.1 ^ 2 + n.2.2 ^ 2 = 1 := by
  intro row hrow n hn
  simp only [HeightMap.generate, List.mem_map, List.mem_range] at hrow
  obtain ⟨x, _, rfl⟩ := hrow
  simp only [List.mem_map, List.mem_range] at hn
  obtain ⟨z, _, rfl⟩ := hn
  apply normalizeOrZero_unit
  show EPSILON ≠ 0
  unfold EPSILON
  norm_num

/-- C9: for well-formed configuration, height-map generation followed by
mesh generation is total and complete: the height and normal grids are
full row_size × row_size arrays, all vertex buffers hold row_size^2
entries, and every access heights[x_i][z_i] / normals[x_i][z_i] the mesh
pass performs is within bounds. -/
theorem generation_total_and_complete (offset : ℝ × ℝ) (size : ℝ)
    (row_size : ℕ) (f : ℝ × ℝ → ℝ) (h2 : 2 ≤ row_size) :
    (HeightMap.generate offset size row_size f).row_size = row_size ∧
    (HeightMap.generate offset size row_size f).heights.length = row_size ∧
    (∀ row ∈ (HeightMap.generate offset size row_size f).heights,
      row.length = row_size) ∧
    (HeightMap.generate offset size row_size f).normals.length = row_size ∧
    (∀ row ∈ (HeightMap.generate offset size row_size f).normals,
      row.length = row_size) ∧
    (HeightMap.generate offset size row_size f).generate_mesh.positions.length
      = row_size ^ 2 ∧
    (HeightMap.generate offset size row_size f).generate_mesh.normals.length
      = row_size ^ 2 ∧
    (HeightMap.generate offset size row_size f).generate_mesh.uvs.length
      = row_size ^ 2 ∧
    (∀ x_i z_i, x_i < row_size → z_i < row_size →
      x_i < (HeightMap.generate offset size row_size f).heights.length ∧
      z_i < ((HeightMap.generate offset size row_size f).heights.getD x_i
        []).length ∧
      x_i < (HeightMap.generate offset size row_size f).normals.length ∧
      z_i < ((HeightMap.generate offset size row_size f).normals.getD x_i
        []).length) := by
  have hh : (HeightMap.generate offset size row_size f).heights.length
      = row_size := by
    simp [HeightMap.generate]
  have hhrow : ∀ row ∈ (HeightMap.generate offset size row_size f).heights,
      row.length = row_size := by
    intro row hrow
    simp only [HeightMap.generate, List.mem_map, List.mem_range] at hrow
    obtain ⟨x, _, rfl⟩ := hrow
    simp
  have hn : (HeightMap.generate offset size row_size f).normals.length
      = row_size := by
    simp [HeightMap.generate]
  have hnrow : ∀ row ∈ (HeightMap.generate offset size row_size f).normals,
      row.length = row_size := by
    intro row hrow
    simp only [HeightMap.generate, List.mem_map, List.mem_range] at hrow
    obtain ⟨x, _, rfl⟩ := hrow
    simp
  have hgeth : ∀ x_i, x_i < row_size →
      ((HeightMap.generate offset size row_size f).heights.getD x_i []).length
        = row_size := by
    intro x_i hx
    exact hhrow _ (getD_mem_of_lt _ _ _ (by omega))
  have hgetn : ∀ x_i, x_i < row_size →
      ((HeightMap.generate offset size row_size f).normals.getD x_i []).length
        = row_size := by
    intro x_i hx
    exact getD_mem_of_lt _ _ _ (by omega) |> hnrow _
  refine ⟨rfl, hh, hhrow, hn, hnrow, ?_, ?_, ?_, ?_⟩
  · show ((List.range row_size).flatMap fun x_i : ℕ =>
      (List.range row_size).map fun z_i : ℕ =>
        ((x_i : ℝ) * (1 / ((row_size - 1 : ℕ) : ℝ) * size) - size / 2,
         ((HeightMap.generate offset size row_size f).heights.getD x_i
           []).getD z_i 0,
         (z_i : ℝ) * (1 / ((row_size - 1 : ℕ) : ℝ) * size) -
           size / 2)).length = row_size ^ 2
    rw [List.length_flatMap]
    simp only [Function.comp_def, List.length_map, List.length_range]
    rw [sum_map_const_range, pow_two]
  · show ((List.range row_size).flatMap fun x_i : ℕ =>
      (List.range row_size).map fun z_i : ℕ =>
        ((HeightMap.generate offset size row_size f).normals.getD x_i
          []).getD z_i (0, 0, 0)).length = row_size ^ 2
    rw [List.length_flatMap]
    simp only [Function.comp_def, List.length_map, List.length_range]
    rw [sum_map_const_range, pow_two]
  · show ((List.range row_size).flatMap fun x_i : ℕ =>
      (List.range row_size).map fun z_i : ℕ =>
        ((x_i : ℝ) * (1 / ((row_size - 1 : ℕ) : ℝ) * size) - size / 2,
         (z_i : ℝ) * (1 / ((row_size - 1 : ℕ) : ℝ) * size) -
           size / 2)).length = row_size ^ 2
    rw [List.length_flatMap]
    simp only [Function.comp_def, List.length_map, List.length_range]
    rw [sum_map_const_range, pow_two]
  · intro x_i z_i hx hz
    refine ⟨by omega, ?_, by omega, ?_⟩
    · rw [hgeth x_i hx]
      exact hz
    · rw [hgetn x_i hx]
      exact hz

/-- Witness for C9 at row_size 2, unit chunk, zero height function. -/
theorem generation_total_and_complete_witness :
    (HeightMap.generate (0, 0) 1 2 fun _ => 0).row_size = 2 ∧
    (HeightMap.generate (0, 0) 1 2 fun _ => 0).heights.length = 2 ∧
    (∀ row ∈ (HeightMap.generate (0, 0) 1 2 fun _ => 0).heights,
      row.length = 2) ∧
    (HeightMap.generate (0, 0) 1 2 fun _ => 0).normals.length = 2 ∧
    (∀ row ∈ (HeightMap.generate (0, 0) 1 2 fun _ => 0).normals,
      row.length = 2) ∧
    (HeightMap.generate (0, 0) 1 2 fun _ => 0).generate_mesh.positions.length
      = 2 ^ 2 ∧
    (HeightMap.generate (0, 0) 1 2 fun _ => 0).generate_mesh.normals.length
      = 2 ^ 2 ∧
    (HeightMap.generate (0, 0) 1 2 fun _ => 0).generate_mesh.uvs.length
      = 2 ^ 2 ∧
    (∀ x_i z_i, x_i < 2 → z_i < 2 →
      x_i < (HeightMap.generate (0, 0) 1 2 fun _ => 0).heights.length ∧
      z_i < ((HeightMap.generate (0, 0) 1 2 fun _ => 0).heights.getD x_i
        []).length ∧
      x_i < (HeightMap.generate (0, 0) 1 2 fun _ => 0).normals.length ∧
      z_i < ((HeightMap.generate (0, 0) 1 2 fun _ => 0).normals.getD x_i
        []).length) :=
  generation_total_and_complete (0, 0) 1 2 (fun _ => 0) (by decide)

/-- C10: for any nonempty detail table and positive max_range, every
candidate that passes the distance guard (squared distance at most
max_range^2) gets a LOD index strictly below the table length, so the
indexing detail[lod] of the dispatch path never goes out of bounds. -/
theorem lod_index_in_bounds (detail : List ℕ) (d2 R : ℕ)
    (hne : detail ≠ []) (hR : 0 < R) (hd : d2 ≤ R ^ 2) :
    lodOf d2 R detail.length < detail.length := by
  have hn : 1 ≤ detail.length := List.length_pos.mpr hne
  have h1 : d2 * (detail.length - 1) ^ 2 ≤ (R * (detail.length - 1)) ^ 2 := by
    rw [mul_pow]
    exact Nat.mul_le_mul_right _ hd
  have h2 : Nat.sqrt (d2 * (detail.length - 1) ^ 2) ≤ R * (detail.length - 1) := by
    calc Nat.sqrt (d2 * (detail.length - 1) ^ 2)
        ≤ Nat.sqrt ((R * (detail.length - 1)) ^ 2) := Nat.sqrt_le_sqrt h1
    _ = R * (detail.length - 1) := Nat.sqrt_eq' _
  have h3 : lodOf d2 R detail.length ≤ R * (detail.length - 1) / R :=
    Nat.div_le_div_right h2
  rw [Nat.mul_div_cancel_left _ hR] at h3
  omega

/-- Witness for C10 at the default table, the default range, and the
extreme in-range squared distance 2000². -/
theorem lod_index_in_bounds_witness :
    lodOf 4000000 2000 ([75, 50, 25, 15, 10, 5, 3] : List ℕ).length <
      ([75, 50, 25, 15, 10, 5, 3] : List ℕ).length :=
  lod_index_in_bounds [75, 50, 25, 15, 10, 5, 3] 4000000 2000 (by decide)
    (by decide) (by decide)

/-- C4: the LOD assignment lod = floor(d / maxRange * (numLevels - 1))
maps distance 0 to index 0 (resolution 75) and distance 2000 to index 6
(resolution 3) for the default table; the index is non-decreasing in the
distance and the resolution at the assigned index is non-increasing. -/
theorem lod_assignment_monotone :
    lodQ 0 2000 7 = 0 ∧
    ([75, 50, 25, 15, 10, 5, 3] : List ℕ).getD (lodQ 0 2000 7).toNat 0 = 75 ∧
    lodQ 2000 2000 7 = 6 ∧
    ([75, 50, 25, 15, 10, 5, 3] : List ℕ).getD (lodQ 2000 2000 7).toNat 0 = 3 ∧
    (∀ d1 d2 : ℚ, 0 ≤ d1 → d1 ≤ d2 → lodQ d1 2000 7 ≤ lodQ d2 2000 7) ∧
    (∀ d1 d2 : ℚ, 0 ≤ d1 → d1 ≤ d2 → d2 ≤ 2000 →
      ([75, 50, 25, 15, 10, 5, 3] : List ℕ).getD (lodQ d2 2000 7).toNat 0 ≤
      ([75, 50, 25, 15, 10, 5, 3] : List ℕ).getD (lodQ d1 2000 7).toNat 0) := by
  have hmono : ∀ d1 d2 : ℚ, 0 ≤ d1 → d1 ≤ d2 →
      lodQ d1 2000 7 ≤ lodQ d2 2000 7 := by
    intro d1 d2 _ h12
    apply Int.floor_le_floor
    have h1 : d1 / 2000 ≤ d2 / 2000 := by
      apply div_le_div_of_nonneg_right h12
      norm_num
    have h2 : ((7 - 1 : ℕ) : ℚ) = 6 := by norm_num
    rw [h2]
    nlinarith
  have hnonneg : ∀ d : ℚ, 0 ≤ d → 0 ≤ lodQ d 2000 7 := by
    intro d hd
    apply Int.floor_nonneg.mpr
    have : (0 : ℚ) ≤ d / 2000 := by positivity
    have h2 : ((7 - 1 : ℕ) : ℚ) = 6 := by norm_num
    rw [h2]
    nlinarith
  have hmax : ∀ d : ℚ, 0 ≤ d → d ≤ 2000 → lodQ d 2000 7 ≤ 6 := by
    intro d hd hd2
    have h1 : d / 2000 ≤ 1 := by
      rw [div_le_one (by norm_num : (0 : ℚ) < 2000)]
      exact hd2
    have h2 : ((7 - 1 : ℕ) : ℚ) = 6 := by norm_num
    have h3 : d / 2000 * ((7 - 1 : ℕ) : ℚ) ≤ 6 := by
      rw [h2]
      nlinarith [div_nonneg hd (by norm_num : (0 : ℚ) ≤ 2000)]
    calc lodQ d 2000 7 ≤ ⌊(6 : ℚ)⌋ := Int.floor_le_floor h3
    _ = 6 := by norm_num
  have htable : ∀ j < 7, ∀ i < 7, i ≤ j →
      ([75, 50, 25, 15, 10, 5, 3] : List ℕ).getD j 0 ≤
      ([75, 50, 25, 15, 10, 5, 3] : List ℕ).getD i 0 := by decide
  have e1 : lodQ 0 2000 7 = 0 := by norm_num [lodQ]
  have e2 : lodQ 2000 2000 7 = 6 := by norm_num [lodQ]
  refine ⟨e1, by rw [e1]; rfl, e2, by rw [e2]; rfl, hmono, ?_⟩
  intro d1 d2 h0 h12 h2000
  have hi1 : lodQ d1 2000 7 ≤ lodQ d2 2000 7 := hmono d1 d2 h0 h12
  have hb2 : lodQ d2 2000 7 ≤ 6 := hmax d2 (le_trans h0 h12) h2000
  have hn1 : 0 ≤ lodQ d1 2000 7 := hnonneg d1 h0
  have hn2 : 0 ≤ lodQ d2 2000 7 := hnonneg d2 (le_trans h0 h12)
  apply htable
  · omega
  · omega
  · omega

/-- Witness for C4: resolution at distance 1500 is at most the one at
distance 300. -/
theorem lod_assignment_monotone_witness :
    ([75, 50, 25, 15, 10, 5, 3] : List ℕ).getD (lodQ 1500 2000 7).toNat 0 ≤
    ([75, 50, 25, 15, 10, 5, 3] : List ℕ).getD (lodQ 300 2000 7).toNat 0 :=
  lod_assignment_monotone.2.2.2.2.2 300 1500 (by decide) (by decide)
    (by decide)

lemma assocFind_eq_none {α β : Type} [DecidableEq α] (l : List (α × β))
    (a : α) : assocFind l a = none ↔ a ∉ l.map Prod.fst := by
  induction l with
  | nil => simp [assocFind]
  | cons kv t ih =>
    by_cases h : kv.1 = a
    · simp [assocFind, h]
    · simp [assocFind, h, ih, Ne.symm h]

lemma assocFind_assocUpdate_self {α β : Type} [DecidableEq α]
    (l : List (α × β)) (a : α) (v : β) :
    assocFind (assocUpdate l a v) a = (assocFind l a).map fun _ => v := by
  induction l with
  | nil => simp [assocFind, assocUpdate]
  | cons kv t ih =>
    by_cases h : kv.1 = a
    · simp [assocFind, assocUpdate, h]
    · simpa [assocFind, assocUpdate, h] using ih

lemma assocFind_assocUpdate_ne {α β : Type} [DecidableEq α]
    (l : List (α × β)) (a b : α) (v : β) (h : b ≠ a) :
    assocFind (assocUpdate l a v) b = assocFind l b := by
  induction l with
  | nil => simp [assocFind, assocUpdate]
  | cons kv t ih =>
    by_cases hk : kv.1 = a
    · rw [show assocUpdate (kv :: t) a v = (a, v) :: assocUpdate t a v by
        simp [assocUpdate, hk]]
      rw [show assocFind ((a, v) :: assocUpdate t a v) b
          = assocFind (assocUpdate t a v) b by
        simp [assocFind, Ne.symm h]]
      rw [ih, show assocFind (kv :: t) b = assocFind t b by
        simp [assocFind, hk, Ne.symm h]]
    · rw [show assocUpdate (kv :: t) a v = kv :: assocUpdate t a v by
        simp [assocUpdate, hk]]
      by_cases hb : kv.1 = b
      · simp [assocFind, hb]
      · simp [assocFind, hb, ih]

lemma assocUpdate_keys {α β : Type} [DecidableEq α] (l : List (α × β))
    (a : α) (v : β) :
    (assocUpdate l a v).map Prod.fst = l.map Prod.fst := by
  induction l with
  | nil => simp [assocUpdate]
  | cons kv t ih =>
    by_cases h : kv.1 = a
    · simp [assocUpdate, h, ih] at *
      simpa [h] using ih
    · simp [assocUpdate, h] at *
      simpa [h] using ih

lemma assocFind_assocModify_self {α β : Type} [DecidableEq α]
    (l : List (α × β)) (a : α) (g : β → β) :
    assocFind (assocModify l a g) a = (assocFind l a).map g := by
  induction l with
  | nil => simp [assocFind, assocModify]
  | cons kv t ih =>
    by_cases h : kv.1 = a
    · simp [assocFind, assocModify, h]
    · simpa [assocFind, assocModify, h] using ih

lemma assocFind_assocModify_ne {α β : Type} [DecidableEq α]
    (l : List (α × β)) (a b : α) (g : β → β) (h : b ≠ a) :
    assocFind (assocModify l a g) b = assocFind l b := by
  induction l with
  | nil => simp [assocFind, assocModify]
  | cons kv t ih =>
    by_cases hk : kv.1 = a
    · rw [show assocModify (kv :: t) a g = (kv.1, g kv.2) :: assocModify t a g
        by simp [assocModify, hk]]
      rw [show assocFind ((kv.1, g kv.2) :: assocModify t a g) b
          = assocFind (assocModify t a g) b by
        simp [assocFind, hk, Ne.symm h]]
      rw [ih, show assocFind (kv :: t) b = assocFind t b by
        simp [assocFind, hk, Ne.symm h]]
    · rw [show assocModify (kv :: t) a g = kv :: assocModify t a g by
        simp [assocModify, hk]]
      by_cases hb : kv.1 = b
      · simp [assocFind, hb]
      · simp [assocFind, hb, ih]

lemma assocModify_keys {α β : Type} [DecidableEq α] (l : List (α × β))
    (a : α) (g : β → β) :
    (assocModify l a g).map Prod.fst = l.map Prod.fst := by
  induction l with
  | nil => simp [assocModify]
  | cons kv t ih =>
    by_cases h : kv.1 = a
    · simp [assocModify] at *
      simpa [h] using ih
    · simp [assocModify] at *
      simpa [h] using ih

lemma assocFind_append {α β : Type} [DecidableEq α] (l₁ l₂ : List (α × β))
    (a : α) :
    assocFind (l₁ ++ l₂) a =
      match assocFind l₁ a with
      | some v => some v
      | none => assocFind l₂ a := by
  induction l₁ with
  | nil => simp [assocFind]
  | cons kv t ih =>
    by_cases h : kv.1 = a
    · simp [assocFind, h]
    · simp [assocFind, h, ih]

lemma consume_channel (s : TerrainChunks) (u : ChunkUpdate) :
    (consume s u).channel = s.channel := by
  unfold consume
  rcases h : assocFind s.chunks u.position with _ | ch <;> simp [h]

lemma consume_config (s : TerrainChunks) (u : ChunkUpdate) :
    (consume s u).chunk_size = s.chunk_size ∧
    (consume s u).max_range = s.max_range ∧
    (consume s u).detail = s.detail ∧
    (consume s u).heightFn = s.heightFn := by
  unfold consume
  rcases h : assocFind s.chunks u.position with _ | ch <;> simp [h]

lemma consume_nextMesh (s : TerrainChunks) (u : ChunkUpdate) :
    (consume s u).world.nextMesh = s.world.nextMesh + 1 := by
  unfold consume
  rcases h : assocFind s.chunks u.position with _ | ch <;> simp [h]

lemma consume_queue (s : TerrainChunks) (u : ChunkUpdate) :
    (consume s u).queue = s.queue.erase u.position := by
  unfold consume
  rcases h : assocFind s.chunks u.position with _ | ch <;> simp [h]

/-- C5: consuming a GenerationResult always removes its coordinate from
the pending set; when the coordinate is resident, the chunk's lod and
geometry are replaced in place on the existing world object (same entity,
same entity-id set, no spawn; the entity's mesh handle and HeightField
heights are overwritten, its transform kept); when it is not resident, a
new chunk is inserted with a freshly spawned world object positioned at
the chunk's world offset. -/
theorem consume_spec (s : TerrainChunks) (u : ChunkUpdate)
    (hfresh : s.world.nextEntity ∉ s.world.entities.map Prod.fst) :
    (u.position ∉ (consume s u).queue) ∧
    (∀ ch, assocFind s.chunks u.position = some ch →
      assocFind (consume s u).chunks u.position =
        some { lod := u.lod, mesh := s.world.nextMesh, entity := ch.entity } ∧
      (consume s u).world.nextEntity = s.world.nextEntity ∧
      (consume s u).world.entities.map Prod.fst =
        s.world.entities.map Prod.fst ∧
      (∀ d, assocFind s.world.entities ch.entity = some d →
        assocFind (consume s u).world.entities ch.entity =
          some { meshHandle := s.world.nextMesh
                 heights := u.height_map.heights
                 collisionSize := d.collisionSize
                 transform := d.transform })) ∧
    (assocFind s.chunks u.position = none →
      (consume s u).chunks =
        (u.position,
          ({ lod := u.lod
             mesh := s.world.nextMesh
             entity := s.world.nextEntity } : TerrainChunk)) :: s.chunks ∧
      (consume s u).world.nextEntity = s.world.nextEntity + 1 ∧
      assocFind (consume s u).world.entities s.world.nextEntity =
        some { meshHandle := s.world.nextMesh
               heights := u.height_map.heights
               collisionSize := ((s.chunk_size : ℝ), (s.chunk_size : ℝ))
               transform := ((u.position.1 : ℝ), 0, (u.position.2 : ℝ)) }) := by
  refine ⟨?_, ?_, ?_⟩
  · rw [consume_queue]
    exact Finset.not_mem_erase _ _
  · intro ch hch
    have hc : consume s u =
        { s with
          queue := s.queue.erase u.position
          chunks := assocUpdate s.chunks u.position
            { lod := u.lod, mesh := s.world.nextMesh, entity := ch.entity }
          world :=
            { s.world with
              nextMesh := s.world.nextMesh + 1
              meshAssets := s.world.meshAssets ++ [(s.world.nextMesh, u.mesh)]
              entities := assocModify s.world.entities ch.entity fun d =>
                { d with meshHandle := s.world.nextMesh,
                         heights := u.height_map.heights } } } := by
      unfold consume
      rw [hch]
    refine ⟨?_, ?_, ?_, ?_⟩
    · rw [hc]
      show assocFind (assocUpdate s.chunks u.position _) u.position = _
      rw [assocFind_assocUpdate_self, hch]
      rfl
    · rw [hc]
    · rw [hc]
      exact assocModify_keys s.world.entities ch.entity fun e =>
        { e with meshHandle := s.world.nextMesh,
                 heights := u.height_map.heights }
    · intro d hd
      rw [hc]
      show assocFind (assocModify s.world.entities ch.entity fun e =>
        { e with meshHandle := s.world.nextMesh,
                 heights := u.height_map.heights }) ch.entity =
        some { meshHandle := s.world.nextMesh
               heights := u.height_map.heights
               collisionSize := d.collisionSize
               transform := d.transform }
      rw [assocFind_assocModify_self, hd]
      rfl
  · intro hnone
    have hc : consume s u =
        { s with
          queue := s.queue.erase u.position
          chunks := (u.position,
            ({ lod := u.lod
               mesh := s.world.nextMesh
               entity := s.world.nextEntity } : TerrainChunk)) :: s.chunks
          world :=
            { s.world with
              nextMesh := s.world.nextMesh + 1
              meshAssets := s.world.meshAssets ++ [(s.world.nextMesh, u.mesh)]
              nextEntity := s.world.nextEntity + 1
              entities := s.world.entities ++
                [(s.world.nextEntity,
                  { meshHandle := s.world.nextMesh
                    heights := u.height_map.heights
                    collisionSize := ((s.chunk_size : ℝ), (s.chunk_size : ℝ))
                    transform :=
                      ((u.position.1 : ℝ), 0, (u.position.2 : ℝ)) })] } } := by
      unfold consume
      rw [hnone]
    refine ⟨by rw [hc], by rw [hc], ?_⟩
    rw [hc]
    show assocFind (s.world.entities ++ [(s.world.nextEntity, _)])
      s.world.nextEntity = _
    rw [assocFind_append]
    rw [(assocFind_eq_none _ _).mpr hfresh]
    simp [assocFind]

/-- Witness for C5: consuming a result for a non-resident coordinate on a
fresh store spawns entity 0 at the chunk's offset and inserts the chunk. -/
theorem consume_spec_witness :
    (consume (initState 1 2 [1] fun _ => 0)
        { position := (0, 0), height_map := HeightMap.mk 1 1 [[0]] [[(0, 0, 1)]],
          mesh := MeshData.mk [] [] [] [], lod := 0 }).chunks =
      [((0, 0), ({ lod := 0, mesh := 0, entity := 0 } : TerrainChunk))] ∧
    (consume (initState 1 2 [1] fun _ => 0)
        { position := (0, 0), height_map := HeightMap.mk 1 1 [[0]] [[(0, 0, 1)]],
          mesh := MeshData.mk [] [] [] [], lod := 0 }).world.nextEntity = 0 + 1 ∧
    assocFind (consume (initState 1 2 [1] fun _ => 0)
        { position := (0, 0), height_map := HeightMap.mk 1 1 [[0]] [[(0, 0, 1)]],
          mesh := MeshData.mk [] [] [] [], lod := 0 }).world.entities 0 =
      some { meshHandle := 0, heights := [[0]]
             collisionSize := (((1 : ℕ) : ℝ), ((1 : ℕ) : ℝ))
             transform := (((0 : ℤ) : ℝ), 0, ((0 : ℤ) : ℝ)) } :=
  (consume_spec (initState 1 2 [1] fun _ => 0)
    { position := (0, 0), height_map := HeightMap.mk 1 1 [[0]] [[(0, 0, 1)]],
      mesh := MeshData.mk [] [] [] [], lod := 0 }
    (by simp [initState])).2.2 rfl

lemma consume_of_resident (s : TerrainChunks) (u : ChunkUpdate)
    (ch : TerrainChunk) (hch : assocFind s.chunks u.position = some ch) :
    consume s u =
      { s with
        queue := s.queue.erase u.position
        chunks := assocUpdate s.chunks u.position
          { lod := u.lod, mesh := s.world.nextMesh, entity := ch.entity }
        world :=
          { s.world with
            nextMesh := s.world.nextMesh + 1
            meshAssets := s.world.meshAssets ++ [(s.world.nextMesh, u.mesh)]
            entities := assocModify s.world.entities ch.entity fun d =>
              { d with meshHandle := s.world.nextMesh,
                       heights := u.height_map.heights } } } := by
  unfold consume
  rw [hch]

lemma consume_of_new (s : TerrainChunks) (u : ChunkUpdate)
    (hnone : assocFind s.chunks u.position = none) :
    consume s u =
      { s with
        queue := s.queue.erase u.position
        chunks := (u.position,
          ({ lod := u.lod
             mesh := s.world.nextMesh
             entity := s.world.nextEntity } : TerrainChunk)) :: s.chunks
        world :=
          { s.world with
            nextMesh := s.world.nextMesh + 1
            meshAssets := s.world.meshAssets ++ [(s.world.nextMesh, u.mesh)]
            nextEntity := s.world.nextEntity + 1
            entities := s.world.entities ++
              [(s.world.nextEntity,
                { meshHandle := s.world.nextMesh
                  heights := u.height_map.heights
                  collisionSize := ((s.chunk_size : ℝ), (s.chunk_size : ℝ))
                  transform :=
                    ((u.position.1 : ℝ), 0, (u.position.2 : ℝ)) })] } } := by
  unfold consume
  rw [hnone]

lemma consume_find_ne (s : TerrainChunks) (u : ChunkUpdate) (q : ℤ × ℤ)
    (hq : q ≠ u.position) :
    assocFind (consume s u).chunks q = assocFind s.chunks q := by
  rcases hch : assocFind s.chunks u.position with _ | ch
  · rw [consume_of_new s u hch]
    show assocFind ((u.position, _) :: s.chunks) q = assocFind s.chunks q
    simp [assocFind, Ne.symm hq]
  · rw [consume_of_resident s u ch hch]
    exact assocFind_assocUpdate_ne _ _ _ _ hq

lemma consume_keys_some (s : TerrainChunks) (u : ChunkUpdate)
    (ch : TerrainChunk) (hch : assocFind s.chunks u.position = some ch) :
    (consume s u).chunks.map Prod.fst = s.chunks.map Prod.fst := by
  rw [consume_of_resident s u ch hch]
  exact assocUpdate_keys _ _ _

lemma consume_keys_none (s : TerrainChunks) (u : ChunkUpdate)
    (hnone : assocFind s.chunks u.position = none) :
    (consume s u).chunks.map Prod.fst = u.position :: s.chunks.map Prod.fst := by
  rw [consume_of_new s u hnone]
  rfl

lemma assocFind_mem_of_some {α β : Type} [DecidableEq α]
    {l : List (α × β)} {a : α} {v : β} (h : assocFind l a = some v) :
    a ∈ l.map Prod.fst := by
  by_contra hmem
  rw [(assocFind_eq_none l a).mpr hmem] at h
  exact Option.noConfusion h

lemma filter_key_nil {β : Type} (l : List ((ℤ × ℤ) × β)) (a : ℤ × ℤ)
    (h : a ∉ l.map Prod.fst) :
    l.filter (fun pc => pc.1 = a) = [] := by
  induction l with
  | nil => rfl
  | cons kv t ih =>
    simp only [List.map_cons, List.mem_cons, not_or] at h
    rw [List.filter_cons]
    rw [if_neg (by simpa using Ne.symm h.1)]
    exact ih h.2

lemma filter_key_length_one {β : Type} (l : List ((ℤ × ℤ) × β)) (a : ℤ × ℤ)
    (hnd : (l.map Prod.fst).Nodup) (h : a ∈ l.map Prod.fst) :
    (l.filter (fun pc => pc.1 = a)).length = 1 := by
  induction l with
  | nil => simp at h
  | cons kv t ih =>
    simp only [List.map_cons, List.nodup_cons] at hnd
    rw [List.filter_cons]
    by_cases hk : kv.1 = a
    · rw [if_pos (by simpa using hk)]
      rw [filter_key_nil t a (hk ▸ hnd.1)]
      rfl
    · rw [if_neg (by simpa using hk)]
      apply ih hnd.2
      simp only [List.map_cons, List.mem_cons] at h
      rcases h with h | h
      · exact absurd h.symm hk
      · exact h

/-- C8: consuming two generation results with the same coordinate, lod
and (by determinism of generation) identical geometry, in either order,
yields the same final state: the coordinate stays mapped to exactly one
chunk whose geometry handle is the latest registered mesh, at most one
world object is created across both consumes, and the store keys stay
duplicate-free. -/
theorem consume_same_coordinate_idempotent (s : TerrainChunks)
    (u1 u2 : ChunkUpdate) (hpos : u1.position = u2.position)
    (hlod : u1.lod = u2.lod) (hhm : u1.height_map = u2.height_map)
    (hmesh : u1.mesh = u2.mesh)
    (hnd : (s.chunks.map Prod.fst).Nodup) :
    consume (consume s u1) u2 = consume (consume s u2) u1 ∧
    (∃ e, assocFind (consume (consume s u1) u2).chunks u2.position =
      some { lod := u2.lod, mesh := s.world.nextMesh + 1, entity := e }) ∧
    (consume (consume s u1) u2).world.nextMesh = s.world.nextMesh + 2 ∧
    (consume (consume s u1) u2).world.nextEntity ≤ s.world.nextEntity + 1 ∧
    ((consume (consume s u1) u2).chunks.map Prod.fst).Nodup ∧
    ((consume (consume s u1) u2).chunks.filter
      (fun pc => pc.1 = u2.position)).length = 1 := by
  obtain ⟨p1, hm1, m1, l1⟩ := u1
  obtain ⟨p2, hm2, m2, l2⟩ := u2
  simp only [ChunkUpdate.mk.injEq] at hpos hlod hhm hmesh ⊢
  subst hpos
  subst hlod
  subst hhm
  subst hmesh
  set u : ChunkUpdate := ChunkUpdate.mk p1 hm1 m1 l1 with hu
  refine ⟨rfl, ?_⟩
  have hm2 : (consume (consume s u) u).world.nextMesh
      = s.world.nextMesh + 2 := by
    rw [consume_nextMesh, consume_nextMesh]
  rcases hch : assocFind s.chunks u.position with _ | ch
  · have h1 := consume_of_new s u hch
    have hfind1 : assocFind (consume s u).chunks u.position =
        some { lod := u.lod, mesh := s.world.nextMesh,
               entity := s.world.nextEntity } := by
      rw [h1]
      show assocFind ((u.position, _) :: s.chunks) u.position = _
      simp [assocFind]
    have h2 := consume_of_resident (consume s u) u _ hfind1
    have hfind2 : assocFind (consume (consume s u) u).chunks u.position =
        some { lod := u.lod, mesh := (consume s u).world.nextMesh,
               entity := s.world.nextEntity } := by
      rw [h2]
      show assocFind (assocUpdate (consume s u).chunks u.position _)
        u.position = _
      rw [assocFind_assocUpdate_self, hfind1]
      rfl
    have hnm1 : (consume s u).world.nextMesh = s.world.nextMesh + 1 :=
      consume_nextMesh s u
    have hkeys : (consume (consume s u) u).chunks.map Prod.fst =
        u.position :: s.chunks.map Prod.fst := by
      rw [consume_keys_some _ _ _ hfind1, consume_keys_none _ _ hch]
    have hpmem : u.position ∉ s.chunks.map Prod.fst :=
      (assocFind_eq_none _ _).mp hch
    refine ⟨⟨s.world.nextEntity, by rw [hfind2, hnm1]⟩, hm2, ?_, ?_, ?_⟩
    · have e1 : (consume (consume s u) u).world.nextEntity
          = (consume s u).world.nextEntity := by
        rw [h2]
      have e2 : (consume s u).world.nextEntity = s.world.nextEntity + 1 := by
        rw [h1]
      exact le_of_eq (e1.trans e2)
    · rw [hkeys]
      exact List.Nodup.cons hpmem hnd
    · apply filter_key_length_one
      · rw [hkeys]
        exact List.Nodup.cons hpmem hnd
      · rw [hkeys]
        exact List.mem_cons_self _ _
  · have h1 := consume_of_resident s u ch hch
    have hfind1 : assocFind (consume s u).chunks u.position =
        some { lod := u.lod, mesh := s.world.nextMesh, entity := ch.entity } := by
      rw [h1]
      show assocFind (assocUpdate s.chunks u.position _) u.position = _
      rw [assocFind_assocUpdate_self, hch]
      rfl
    have h2 := consume_of_resident (consume s u) u _ hfind1
    have hfind2 : assocFind (consume (consume s u) u).chunks u.position =
        some { lod := u.lod, mesh := (consume s u).world.nextMesh,
               entity := ch.entity } := by
      rw [h2]
      show assocFind (assocUpdate (consume s u).chunks u.position _)
        u.position = _
      rw [assocFind_assocUpdate_self, hfind1]
      rfl
    have hnm1 : (consume s u).world.nextMesh = s.world.nextMesh + 1 :=
      consume_nextMesh s u
    have hkeys : (consume (consume s u) u).chunks.map Prod.fst =
        s.chunks.map Prod.fst := by
      rw [consume_keys_some _ _ _ hfind1, consume_keys_some _ _ _ hch]
    have hpmem : u.position ∈ s.chunks.map Prod.fst :=
      assocFind_mem_of_some hch
    refine ⟨⟨ch.entity, by rw [hfind2, hnm1]⟩, hm2, ?_, ?_, ?_⟩
    · have e1 : (consume (consume s u) u).world.nextEntity
          = (consume s u).world.nextEntity := by
        rw [h2]
      have e2 : (consume s u).world.nextEntity = s.world.nextEntity := by
        rw [h1]
      exact le_trans (le_of_eq (e1.trans e2)) (Nat.le_succ _)
    · rw [hkeys]
      exact hnd
    · apply filter_key_length_one
      · rw [hkeys]
        exact hnd
      · rw [hkeys]
        exact hpmem

/-- Witness for C8 on a fresh store with two identical results for the
origin coordinate. -/
theorem consume_same_coordinate_idempotent_witness :
    consume (consume (initState 1 2 [1] fun _ => 0)
        { position := (0, 0), height_map := HeightMap.mk 1 1 [[0]] [[(0, 0, 1)]],
          mesh := MeshData.mk [] [] [] [], lod := 0 })
        { position := (0, 0), height_map := HeightMap.mk 1 1 [[0]] [[(0, 0, 1)]],
          mesh := MeshData.mk [] [] [] [], lod := 0 } =
      consume (consume (initState 1 2 [1] fun _ => 0)
        { position := (0, 0), height_map := HeightMap.mk 1 1 [[0]] [[(0, 0, 1)]],
          mesh := MeshData.mk [] [] [] [], lod := 0 })
        { position := (0, 0), height_map := HeightMap.mk 1 1 [[0]] [[(0, 0, 1)]],
          mesh := MeshData.mk [] [] [] [], lod := 0 } ∧
    (∃ e, assocFind (consume (consume (initState 1 2 [1] fun _ => 0)
        { position := (0, 0), height_map := HeightMap.mk 1 1 [[0]] [[(0, 0, 1)]],
          mesh := MeshData.mk [] [] [] [], lod := 0 })
        { position := (0, 0), height_map := HeightMap.mk 1 1 [[0]] [[(0, 0, 1)]],
          mesh := MeshData.mk [] [] [] [], lod := 0 }).chunks (0, 0) =
      some { lod := 0, mesh := 0 + 1, entity := e }) ∧
    (consume (consume (initState 1 2 [1] fun _ => 0)
        { position := (0, 0), height_map := HeightMap.mk 1 1 [[0]] [[(0, 0, 1)]],
          mesh := MeshData.mk [] [] [] [], lod := 0 })
        { position := (0, 0), height_map := HeightMap.mk 1 1 [[0]] [[(0, 0, 1)]],
          mesh := MeshData.mk [] [] [] [], lod := 0 }).world.nextMesh = 0 + 2 ∧
    (consume (consume (initState 1 2 [1] fun _ => 0)
        { position := (0, 0), height_map := HeightMap.mk 1 1 [[0]] [[(0, 0, 1)]],
          mesh := MeshData.mk [] [] [] [], lod := 0 })
        { position := (0, 0), height_map := HeightMap.mk 1 1 [[0]] [[(0, 0, 1)]],
          mesh := MeshData.mk [] [] [] [], lod := 0 }).world.nextEntity ≤ 0 + 1 ∧
    ((consume (consume (initState 1 2 [1] fun _ => 0)
        { position := (0, 0), height_map := HeightMap.mk 1 1 [[0]] [[(0, 0, 1)]],
          mesh := MeshData.mk [] [] [] [], lod := 0 })
        { position := (0, 0), height_map := HeightMap.mk 1 1 [[0]] [[(0, 0, 1)]],
          mesh := MeshData.mk [] [] [] [], lod := 0 }).chunks.map Prod.fst).Nodup ∧
    ((consume (consume (initState 1 2 [1] fun _ => 0)
        { position := (0, 0), height_map := HeightMap.mk 1 1 [[0]] [[(0, 0, 1)]],
          mesh := MeshData.mk [] [] [] [], lod := 0 })
        { position := (0, 0), height_map := HeightMap.mk 1 1 [[0]] [[(0, 0, 1)]],
          mesh := MeshData.mk [] [] [] [], lod := 0 }).chunks.filter
      (fun pc : (ℤ × ℤ) × TerrainChunk => pc.1 = (0, 0))).length = 1 :=
  consume_same_coordinate_idempotent (initState 1 2 [1] fun _ => 0)
    { position := (0, 0), height_map := HeightMap.mk 1 1 [[0]] [[(0, 0, 1)]],
      mesh := MeshData.mk [] [] [] [], lod := 0 }
    { position := (0, 0), height_map := HeightMap.mk 1 1 [[0]] [[(0, 0, 1)]],
      mesh := MeshData.mk [] [] [] [], lod := 0 } rfl rfl rfl rfl (by decide)

@[simp] lemma loadStep_chunk_size (cc : ℤ × ℤ) (s : TerrainChunks)
    (o : ℤ × ℤ) : (loadStep cc s o).chunk_size = s.chunk_size := by
  unfold loadStep
  dsimp only
  split_ifs <;> rfl

@[simp] lemma loadStep_max_range (cc : ℤ × ℤ) (s : TerrainChunks)
    (o : ℤ × ℤ) : (loadStep cc s o).max_range = s.max_range := by
  unfold loadStep
  dsimp only
  split_ifs <;> rfl

@[simp] lemma loadStep_detail (cc : ℤ × ℤ) (s : TerrainChunks)
    (o : ℤ × ℤ) : (loadStep cc s o).detail = s.detail := by
  unfold loadStep
  dsimp only
  split_ifs <;> rfl

@[simp] lemma loadStep_heightFn (cc : ℤ × ℤ) (s : TerrainChunks)
    (o : ℤ × ℤ) : (loadStep cc s o).heightFn = s.heightFn := by
  unfold loadStep
  dsimp only
  split_ifs <;> rfl

@[simp] lemma loadStep_chunks (cc : ℤ × ℤ) (s : TerrainChunks)
    (o : ℤ × ℤ) : (loadStep cc s o).chunks = s.chunks := by
  unfold loadStep
  dsimp only
  split_ifs <;> rfl

@[simp] lemma loadStep_world (cc : ℤ × ℤ) (s : TerrainChunks)
    (o : ℤ × ℤ) : (loadStep cc s o).world = s.world := by
  unfold loadStep
  dsimp only
  split_ifs <;> rfl

lemma loadStep_queue_mono (cc : ℤ × ℤ) (s : TerrainChunks) (o : ℤ × ℤ) :
    s.queue ⊆ (loadStep cc s o).queue := by
  unfold loadStep
  dsimp only
  split_ifs
  · exact Finset.Subset.refl _
  · exact Finset.Subset.refl _
  · exact Finset.subset_insert _ _

lemma loadFold_chunk_size (L : List (ℤ × ℤ)) (cc : ℤ × ℤ)
    (s : TerrainChunks) :
    (L.foldl (loadStep cc) s).chunk_size = s.chunk_size := by
  induction L generalizing s with
  | nil => rfl
  | cons o T ih => rw [List.foldl_cons, ih, loadStep_chunk_size]

lemma loadFold_max_range (L : List (ℤ × ℤ)) (cc : ℤ × ℤ)
    (s : TerrainChunks) :
    (L.foldl (loadStep cc) s).max_range = s.max_range := by
  induction L generalizing s with
  | nil => rfl
  | cons o T ih => rw [List.foldl_cons, ih, loadStep_max_range]

lemma loadFold_detail (L : List (ℤ × ℤ)) (cc : ℤ × ℤ) (s : TerrainChunks) :
    (L.foldl (loadStep cc) s).detail = s.detail := by
  induction L generalizing s with
  | nil => rfl
  | cons o T ih => rw [List.foldl_cons, ih, loadStep_detail]

lemma loadFold_heightFn (L : List (ℤ × ℤ)) (cc : ℤ × ℤ)
    (s : TerrainChunks) :
    (L.foldl (loadStep cc) s).heightFn = s.heightFn := by
  induction L generalizing s with
  | nil => rfl
  | cons o T ih => rw [List.foldl_cons, ih, loadStep_heightFn]

lemma loadFold_chunks (L : List (ℤ × ℤ)) (cc : ℤ × ℤ) (s : TerrainChunks) :
    (L.foldl (loadStep cc) s).chunks = s.chunks := by
  induction L generalizing s with
  | nil => rfl
  | cons o T ih => rw [List.foldl_cons, ih, loadStep_chunks]

lemma loadFold_world (L : List (ℤ × ℤ)) (cc : ℤ × ℤ) (s : TerrainChunks) :
    (L.foldl (loadStep cc) s).world = s.world := by
  induction L generalizing s with
  | nil => rfl
  | cons o T ih => rw [List.foldl_cons, ih, loadStep_world]

lemma loadFold_queue_mono (L : List (ℤ × ℤ)) (cc : ℤ × ℤ)
    (s : TerrainChunks) :
    s.queue ⊆ (L.foldl (loadStep cc) s).queue := by
  induction L generalizing s with
  | nil => exact Finset.Subset.refl _
  | cons o T ih =>
    rw [List.foldl_cons]
    exact Finset.Subset.trans (loadStep_queue_mono cc s o) (ih _)

/-- The three reasons the load loop skips an offset: out of range,
already pending, or resident at the desired lod. -/
def skipCond (cc : ℤ × ℤ) (s : TerrainChunks) (o : ℤ × ℤ) : Prop :=
  distSqN cc (toCoord cc s.chunk_size o) > s.max_range ^ 2 ∨
  toCoord cc s.chunk_size o ∈ s.queue ∨
  hasLod s.chunks (toCoord cc s.chunk_size o)
    (lodOf (distSqN cc (toCoord cc s.chunk_size o)) s.max_range
      s.detail.length) = true

lemma loadStep_of_skipCond (cc : ℤ × ℤ) (s : TerrainChunks) (o : ℤ × ℤ)
    (h : skipCond cc s o) : loadStep cc s o = s := by
  unfold loadStep
  dsimp only
  rcases h with h | h | h
  · rw [if_pos (Or.inl h)]
  · rw [if_pos (Or.inr h)]
  · by_cases hg : distSqN cc (toCoord cc s.chunk_size o) > s.max_range ^ 2 ∨
        toCoord cc s.chunk_size o ∈ s.queue
    · rw [if_pos hg]
    · rw [if_neg hg, if_pos h]

lemma skipCond_persists (cc : ℤ × ℤ) (s : TerrainChunks) (o o' : ℤ × ℤ)
    (h : skipCond cc s o) : skipCond cc (loadStep cc s o') o := by
  unfold skipCond at h ⊢
  rw [loadStep_chunk_size, loadStep_max_range, loadStep_detail,
    loadStep_chunks]
  rcases h with h | h | h
  · exact Or.inl h
  · exact Or.inr (Or.inl (loadStep_queue_mono cc s o' h))
  · exact Or.inr (Or.inr h)

lemma skipCond_fold_persists (L : List (ℤ × ℤ)) (cc : ℤ × ℤ)
    (s : TerrainChunks) (o : ℤ × ℤ) (h : skipCond cc s o) :
    skipCond cc (L.foldl (loadStep cc) s) o := by
  induction L generalizing s with
  | nil => exact h
  | cons o' T ih =>
    rw [List.foldl_cons]
    exact ih _ (skipCond_persists cc s o o' h)

lemma loadStep_creates_skipCond (cc : ℤ × ℤ) (s : TerrainChunks)
    (o : ℤ × ℤ) : skipCond cc (loadStep cc s o) o := by
  by_cases h1 : distSqN cc (toCoord cc s.chunk_size o) > s.max_range ^ 2 ∨
      toCoord cc s.chunk_size o ∈ s.queue
  · rw [loadStep_of_skipCond cc s o
      (by rcases h1 with h | h; exact Or.inl h; exact Or.inr (Or.inl h))]
    rcases h1 with h | h
    · exact Or.inl h
    · exact Or.inr (Or.inl h)
  · by_cases h2 : hasLod s.chunks (toCoord cc s.chunk_size o)
        (lodOf (distSqN cc (toCoord cc s.chunk_size o)) s.max_range
          s.detail.length) = true
    · rw [loadStep_of_skipCond cc s o (Or.inr (Or.inr h2))]
      exact Or.inr (Or.inr h2)
    · unfold skipCond
      rw [loadStep_chunk_size, loadStep_max_range]
      refine Or.inr (Or.inl ?_)
      unfold loadStep
      dsimp only
      rw [if_neg h1, if_neg (by simpa using h2)]
      exact Finset.mem_insert_self _ _

lemma loadFold_skipCond (L : List (ℤ × ℤ)) (cc : ℤ × ℤ)
    (s : TerrainChunks) : ∀ o ∈ L, skipCond cc (L.foldl (loadStep cc) s) o := by
  induction L generalizing s with
  | nil => intro o h; simp at h
  | cons o0 T ih =>
    intro o ho
    rw [List.foldl_cons]
    rcases List.mem_cons.mp ho with rfl | hT
    · exact skipCond_fold_persists T cc _ o (loadStep_creates_skipCond cc s o)
    · exact ih _ o hT

lemma foldl_fixed {α β : Type} (f : α → β → α) (s : α) (L : List β)
    (h : ∀ o ∈ L, f s o = s) : L.foldl f s = s := by
  induction L with
  | nil => rfl
  | cons o T ih =>
    rw [List.foldl_cons, h o (List.mem_cons_self o T)]
    exact ih fun o' ho' => h o' (List.mem_cons_of_mem _ ho')

lemma loadStep_dichotomy (cc : ℤ × ℤ) (s : TerrainChunks) (o : ℤ × ℤ) :
    loadStep cc s o = s ∨
    ∃ j : ChunkUpdate, (loadStep cc s o).channel = s.channel ++ [j] ∧
      j.position ∉ s.queue ∧
      (loadStep cc s o).queue = insert j.position s.queue := by
  unfold loadStep
  dsimp only
  split_ifs with h1 h2
  · exact Or.inl rfl
  · exact Or.inl rfl
  · refine Or.inr ⟨dispatchJob s.heightFn s.chunk_size s.detail
      (toCoord cc s.chunk_size o)
      (lodOf (distSqN cc (toCoord cc s.chunk_size o)) s.max_range
        s.detail.length), rfl, ?_, rfl⟩
    intro hmem
    exact h1 (Or.inr hmem)

lemma loadFold_channel (L : List (ℤ × ℤ)) (cc : ℤ × ℤ) (s : TerrainChunks) :
    ∃ new : List ChunkUpdate,
      (L.foldl (loadStep cc) s).channel = s.channel ++ new ∧
      ∀ u ∈ new, u.position ∉ s.queue ∧
        u.position ∈ (L.foldl (loadStep cc) s).queue := by
  induction L generalizing s with
  | nil => exact ⟨[], by simp, by simp⟩
  | cons o T ih =>
    rw [List.foldl_cons]
    obtain ⟨new, hch, hprop⟩ := ih (loadStep cc s o)
    rcases loadStep_dichotomy cc s o with heq | ⟨j, hjch, hjq, hq⟩
    · rw [heq] at hch hprop ⊢
      exact ⟨new, hch, hprop⟩
    · refine ⟨j :: new, ?_, ?_⟩
      · rw [hch, hjch, List.append_assoc, List.singleton_append]
      · intro u hu
        rcases List.mem_cons.mp hu with rfl | hu'
        · refine ⟨hjq, ?_⟩
          apply loadFold_queue_mono T cc (loadStep cc s o)
          rw [hq]
          exact Finset.mem_insert_self _ _
        · refine ⟨?_, (hprop u hu').2⟩
          intro hmem
          exact (hprop u hu').1 (loadStep_queue_mono cc s o hmem)

/-- C2: reconciliation never schedules a coordinate that is already
pending (even when its cached lod is stale), and running load_chunks twice
in a row before any result is consumed is a no-op the second time, so each
dispatched coordinate has exactly one pending entry. -/
theorem pending_set_dedup (center : ℚ × ℚ) (s : TerrainChunks) :
    TerrainChunks.load_chunks center (TerrainChunks.load_chunks center s) =
      TerrainChunks.load_chunks center s ∧
    ∃ newJobs : List ChunkUpdate,
      (TerrainChunks.load_chunks center s).channel = s.channel ++ newJobs ∧
      (∀ u ∈ newJobs, u.position ∉ s.queue) ∧
      (∀ u ∈ newJobs, u.position ∈ (TerrainChunks.load_chunks center s).queue) := by
  constructor
  · show (coordOffsets (chunkRange
        (TerrainChunks.load_chunks center s).max_range
        (TerrainChunks.load_chunks center s).chunk_size)).foldl
      (loadStep (snapCenter center
        (TerrainChunks.load_chunks center s).chunk_size))
      (TerrainChunks.load_chunks center s) = TerrainChunks.load_chunks center s
    unfold TerrainChunks.load_chunks
    dsimp only
    rw [loadFold_max_range, loadFold_chunk_size]
    apply foldl_fixed
    intro o ho
    exact loadStep_of_skipCond _ _ o
      (loadFold_skipCond _ _ s o ho)
  · obtain ⟨new, hch, hprop⟩ := loadFold_channel
      (coordOffsets (chunkRange s.max_range s.chunk_size))
      (snapCenter center s.chunk_size) s
    exact ⟨new, hch, fun u hu => (hprop u hu).1, fun u hu => (hprop u hu).2⟩

lemma loadStep_dispatch (cc : ℤ × ℤ) (s : TerrainChunks) (o : ℤ × ℤ)
    (hin : distSqN cc (toCoord cc s.chunk_size o) ≤ s.max_range ^ 2)
    (hq : toCoord cc s.chunk_size o ∉ s.queue)
    (hl : hasLod s.chunks (toCoord cc s.chunk_size o)
      (lodOf (distSqN cc (toCoord cc s.chunk_size o)) s.max_range
        s.detail.length) = false) :
    loadStep cc s o =
      { s with
        queue := insert (toCoord cc s.chunk_size o) s.queue
        channel := s.channel ++ [dispatchJob s.heightFn s.chunk_size s.detail
          (toCoord cc s.chunk_size o)
          (lodOf (distSqN cc (toCoord cc s.chunk_size o)) s.max_range
            s.detail.length)] } := by
  unfold loadStep
  dsimp only
  rw [if_neg, if_neg (by simp [hl])]
  intro h
  rcases h with h | h
  · exact absurd hin (not_le.mpr h)
  · exact hq h

lemma hasLod_nil (p : ℤ × ℤ) (lod : ℕ) : hasLod [] p lod = false := rfl

lemma loadFold_fresh_channel (L : List (ℤ × ℤ)) (cc : ℤ × ℤ)
    (s : TerrainChunks) (hck : s.chunks = [])
    (hnd : (L.map (toCoord cc s.chunk_size)).Nodup)
    (hq : ∀ o ∈ L, toCoord cc s.chunk_size o ∉ s.queue) :
    (L.foldl (loadStep cc) s).channel = s.channel ++
      (L.filter fun o =>
        distSqN cc (toCoord cc s.chunk_size o) ≤ s.max_range ^ 2).map
        fun o => dispatchJob s.heightFn s.chunk_size s.detail
          (toCoord cc s.chunk_size o)
          (lodOf (distSqN cc (toCoord cc s.chunk_size o)) s.max_range
            s.detail.length) := by
  induction L generalizing s with
  | nil => simp
  | cons o T ih =>
    rw [List.foldl_cons]
    simp only [List.map_cons, List.nodup_cons] at hnd
    by_cases hin : distSqN cc (toCoord cc s.chunk_size o) ≤ s.max_range ^ 2
    · have hstep := loadStep_dispatch cc s o hin
        (hq o (List.mem_cons_self o T)) (by rw [hck]; exact hasLod_nil _ _)
      have hih := ih (loadStep cc s o)
        (by rw [loadStep_chunks, hck])
        (by rw [loadStep_chunk_size]; exact hnd.2)
        (by
          intro o' ho'
          rw [loadStep_chunk_size, hstep]
          show toCoord cc s.chunk_size o' ∉
            insert (toCoord cc s.chunk_size o) s.queue
          rw [Finset.mem_insert]
          push_neg
          refine ⟨?_, hq o' (List.mem_cons_of_mem o ho')⟩
          intro hcontra
          exact hnd.1 (hcontra ▸ List.mem_map_of_mem _ ho'))
      rw [hih]
      simp only [loadStep_chunk_size, loadStep_max_range, loadStep_detail,
        loadStep_heightFn]
      rw [List.filter_cons_of_pos (by simpa using hin), List.map_cons]
      rw [hstep]
      show (s.channel ++ [_]) ++ _ = s.channel ++ (_ :: _)
      rw [List.append_assoc, List.singleton_append]
    · have hstep : loadStep cc s o = s :=
        loadStep_of_skipCond cc s o (Or.inl (not_le.mp hin))
      rw [hstep, List.filter_cons_of_neg (by simpa using hin)]
      exact ih s hck hnd.2 fun o' ho' => hq o' (List.mem_cons_of_mem o ho')

lemma coordOffsets_nodup (r : ℕ) : (coordOffsets r).Nodup := by
  unfold coordOffsets
  apply List.Nodup.map
  · intro a b hab
    rw [Prod.ext_iff] at hab
    obtain ⟨h1, h2⟩ := hab
    dsimp at h1 h2
    have e1 : a.1 = b.1 := by omega
    have e2 : a.2 = b.2 := by omega
    exact Prod.ext e1 e2
  · exact List.Nodup.product (List.nodup_range _) (List.nodup_range _)

lemma toCoord_injective (cc : ℤ × ℤ) (cs : ℕ) (hcs : 0 < cs) :
    Function.Injective (toCoord cc cs) := by
  intro a b h
  unfold toCoord at h
  rw [Prod.ext_iff] at h
  obtain ⟨h1, h2⟩ := h
  dsimp at h1 h2
  have hcs' : (cs : ℤ) ≠ 0 := by exact_mod_cast hcs.ne'
  refine Prod.ext ?_ ?_
  · exact mul_right_cancel₀ hcs' (by omega)
  · exact mul_right_cancel₀ hcs' (by omega)

lemma candidates_nodup (cc : ℤ × ℤ) (cs R : ℕ) (hcs : 0 < cs) :
    (candidates cc cs R).Nodup := by
  unfold candidates
  exact ((coordOffsets_nodup _).filter _).map (toCoord_injective cc cs hcs)

lemma unload_chunks_of_empty (center : ℚ × ℚ) (s : TerrainChunks)
    (hck : s.chunks = []) : TerrainChunks.unload_chunks center s = s := by
  unfold TerrainChunks.unload_chunks
  dsimp only
  rw [hck]
  simp only [List.filter_nil, List.map_nil, List.elem_nil, Bool.false_eq_true,
    not_false_eq_true, decide_True, List.filter_true]
  rw [← hck]

lemma consumeFold_channel (us : List ChunkUpdate) (t : TerrainChunks) :
    (us.foldl consume t).channel = t.channel := by
  induction us generalizing t with
  | nil => rfl
  | cons u T ih => rw [List.foldl_cons, ih, consume_channel]

lemma consumeFold_find_of_not_mem (us : List ChunkUpdate) (t : TerrainChunks)
    (p : ℤ × ℤ) (h : ∀ u ∈ us, u.position ≠ p) :
    assocFind (us.foldl consume t).chunks p = assocFind t.chunks p := by
  induction us generalizing t with
  | nil => rfl
  | cons u T ih =>
    rw [List.foldl_cons, ih _ fun u' hu' => h u' (List.mem_cons_of_mem u hu')]
    exact consume_find_ne t u p (h u (List.mem_cons_self u T)).symm

lemma consumeFold_fresh_find (us : List ChunkUpdate) (t : TerrainChunks)
    (hnd : (us.map fun u => u.position).Nodup) (u : ChunkUpdate) (hu : u ∈ us)
    (hck : assocFind t.chunks u.position = none) :
    ∃ m e, assocFind (us.foldl consume t).chunks u.position =
      some { lod := u.lod, mesh := m, entity := e } := by
  induction us generalizing t with
  | nil => simp at hu
  | cons u0 T ih =>
    rw [List.foldl_cons]
    simp only [List.map_cons, List.nodup_cons] at hnd
    rcases List.mem_cons.mp hu with rfl | hT
    · have hfind1 : assocFind (consume t u).chunks u.position =
          some { lod := u.lod, mesh := t.world.nextMesh,
                 entity := t.world.nextEntity } := by
        rw [consume_of_new t u hck]
        show assocFind ((u.position, _) :: t.chunks) u.position = _
        simp [assocFind]
      refine ⟨t.world.nextMesh, t.world.nextEntity, ?_⟩
      rw [consumeFold_find_of_not_mem T (consume t u) u.position ?_, hfind1]
      intro u' hu' hcontra
      exact hnd.1 (hcontra ▸ List.mem_map_of_mem _ hu')
    · refine ih (consume t u0) hnd.2 hT ?_
      have hne : u.position ≠ u0.position := by
        intro hcontra
        exact hnd.1 (hcontra ▸ List.mem_map_of_mem _ hT)
      rw [consume_find_ne t u0 u.position hne]
      exact hck

lemma mem_coordOffsets (r : ℕ) (o : ℤ × ℤ) :
    o ∈ coordOffsets r ↔
      -(r : ℤ) ≤ o.1 ∧ o.1 < r ∧ -(r : ℤ) ≤ o.2 ∧ o.2 < r := by
  unfold coordOffsets
  rw [List.mem_map]
  constructor
  · rintro ⟨ab, hab, rfl⟩
    obtain ⟨a, b⟩ := ab
    have hab' : a ∈ List.range (2 * r) ∧ b ∈ List.range (2 * r) :=
      List.mem_product.mp hab
    rw [List.mem_range] at hab'
    rw [List.mem_range] at hab'
    dsimp
    omega
  · rintro ⟨h1, h2, h3, h4⟩
    refine ⟨((o.1 + r).toNat, (o.2 + r).toNat), ?_, ?_⟩
    · apply List.mem_product.mpr
      rw [List.mem_range, List.mem_range]
      omega
    · rw [Prod.ext_iff]
      dsimp
      omega

lemma mem_candidates (cc : ℤ × ℤ) (cs R : ℕ) (p : ℤ × ℤ) :
    p ∈ candidates cc cs R ↔
      ∃ o ∈ coordOffsets (chunkRange R cs),
        p = toCoord cc cs o ∧ distSqN cc p ≤ R ^ 2 := by
  unfold candidates
  rw [List.mem_map]
  constructor
  · rintro ⟨o, ho, rfl⟩
    rw [List.mem_filter] at ho
    exact ⟨o, ho.1, rfl, by simpa using ho.2⟩
  · rintro ⟨o, ho, rfl, hd⟩
    refine ⟨o, ?_, rfl⟩
    rw [List.mem_filter]
    exact ⟨ho, by simpa using hd⟩

lemma first_tick_find (center : ℚ × ℚ) (cs R : ℕ) (detail : List ℕ)
    (f : ℝ × ℝ → ℝ) (hcs : 0 < cs) :
    (TerrainChunks.update_chunks center (initState cs R detail f)).channel
      = [] ∧
    (∀ p : ℤ × ℤ, p ∉ candidates (snapCenter center cs) cs R →
      assocFind (TerrainChunks.update_chunks center
        (initState cs R detail f)).chunks p = none) ∧
    (∀ p ∈ candidates (snapCenter center cs) cs R, ∃ m e,
      assocFind (TerrainChunks.update_chunks center
        (initState cs R detail f)).chunks p =
        some { lod := lodOf (distSqN (snapCenter center cs) p) R detail.length
               mesh := m
               entity := e }) := by
  have hunl : TerrainChunks.unload_chunks center (initState cs R detail f)
      = initState cs R detail f := unload_chunks_of_empty center _ rfl
  have hupd : TerrainChunks.update_chunks center (initState cs R detail f)
      = drainUpdates ((coordOffsets (chunkRange R cs)).foldl
          (loadStep (snapCenter center cs)) (initState cs R detail f)) := by
    unfold TerrainChunks.update_chunks
    rw [hunl]
    rfl
  set t := (coordOffsets (chunkRange R cs)).foldl
    (loadStep (snapCenter center cs)) (initState cs R detail f) with ht
  have hchan : t.channel = (candidates (snapCenter center cs) cs R).map
      fun p => dispatchJob f cs detail p
        (lodOf (distSqN (snapCenter center cs) p) R detail.length) := by
    have h := loadFold_fresh_channel (coordOffsets (chunkRange R cs))
      (snapCenter center cs) (initState cs R detail f) rfl
      (by
        show (List.map (toCoord (snapCenter center cs) cs)
          (coordOffsets (chunkRange R cs))).Nodup
        exact (coordOffsets_nodup _).map (toCoord_injective _ _ hcs))
      (by
        intro o ho
        show toCoord (snapCenter center cs) cs o ∉ (∅ : Finset (ℤ × ℤ))
        exact Finset.not_mem_empty _)
    rw [ht, h]
    unfold candidates
    rw [List.map_map]
    rfl
  have hchunks : t.chunks = [] := by
    rw [ht]
    exact (loadFold_chunks _ _ _).trans rfl
  refine ⟨?_, ?_, ?_⟩
  · rw [hupd]
    show (t.channel.foldl consume { t with channel := [] }).channel = []
    rw [consumeFold_channel]
  · intro p hp
    rw [hupd]
    show assocFind
      ((t.channel.foldl consume { t with channel := [] }).chunks) p = none
    rw [consumeFold_find_of_not_mem]
    · show assocFind t.chunks p = none
      rw [hchunks]
      rfl
    · intro u hu
      rw [hchan] at hu
      obtain ⟨q, hq, rfl⟩ := List.mem_map.mp hu
      show q ≠ p
      intro hqp
      exact hp (hqp ▸ hq)
  · intro p hp
    have hu : dispatchJob f cs detail p
        (lodOf (distSqN (snapCenter center cs) p) R detail.length)
        ∈ t.channel := by
      rw [hchan]
      exact List.mem_map_of_mem _ hp
    have hnd : (t.channel.map fun u => u.position).Nodup := by
      rw [hchan, List.map_map]
      have hcomp : ((fun u : ChunkUpdate => u.position) ∘
          fun p : ℤ × ℤ => dispatchJob f cs detail p
            (lodOf (distSqN (snapCenter center cs) p) R detail.length)) =
          fun p : ℤ × ℤ => p := funext fun q => rfl
      rw [hcomp, List.map_id']
      exact candidates_nodup _ _ _ hcs
    obtain ⟨m, e, hfind⟩ := consumeFold_fresh_find t.channel
      { t with channel := [] } hnd _ hu
      (by
        show assocFind t.chunks p = none
        rw [hchunks]
        rfl)
    refine ⟨m, e, ?_⟩
    rw [hupd]
    show assocFind
      ((t.channel.foldl consume { t with channel := [] }).chunks) p =
      some { lod := lodOf (distSqN (snapCenter center cs) p) R detail.length
             mesh := m
             entity := e }
    exact hfind

/-- Bridge: the squared distance as an integer. -/
lemma distSqN_int (a b : ℤ × ℤ) :
    (distSqN a b : ℤ) = (a.1 - b.1) ^ 2 + (a.2 - b.2) ^ 2 := by
  unfold distSqN
  push_cast [Int.cast_natAbs]
  rw [sq_abs, sq_abs]

/-- C1 (amended): for every reference point and well-formed configuration,
after the first tick on the empty store (whose jobs all run synchronously
and drain within the tick, leaving the channel empty), the resident
coordinates are exactly the candidates: the coordinates of the half-open
enumeration square [-r, r)² around the snapped center, r =
ceil(maxRange / chunkSize), whose distance from the snapped center is at
most maxRange.  In-range coordinates on the excluded +x / +z boundary of
the square are omitted, which refutes the unamended claim. -/
theorem first_tick_residency (center : ℚ × ℚ) (cs R : ℕ) (detail : List ℕ)
    (f : ℝ × ℝ → ℝ) (hcs : 0 < cs) (p : ℤ × ℤ) :
    ((assocFind (TerrainChunks.update_chunks center
        (initState cs R detail f)).chunks p).isSome ↔
      p ∈ candidates (snapCenter center cs) cs R) ∧
    (TerrainChunks.update_chunks center
      (initState cs R detail f)).channel = [] := by
  obtain ⟨hch, hnone, hsome⟩ := first_tick_find center cs R detail f hcs
  refine ⟨⟨?_, ?_⟩, hch⟩
  · intro hs
    by_contra hp
    rw [hnone p hp] at hs
    simp at hs
  · intro hp
    obtain ⟨m, e, hfind⟩ := hsome p hp
    rw [hfind]
    rfl

/-- Witness for C1 at chunkSize 1, maxRange 2, a two-level table. -/
theorem first_tick_residency_witness :
    ((assocFind (TerrainChunks.update_chunks (0, 0)
        (initState 1 2 [1, 1] fun _ => 0)).chunks (0, 0)).isSome ↔
      (0, 0) ∈ candidates (snapCenter (0, 0) 1) 1 2) ∧
    (TerrainChunks.update_chunks (0, 0)
      (initState 1 2 [1, 1] fun _ => 0)).channel = [] :=
  first_tick_residency (0, 0) 1 2 [1, 1] (fun _ => 0) (by decide) (0, 0)

/-- C1 counterexample: with chunkSize 1 and maxRange 2, after the first
tick on the empty store has drained (channel empty), the chunk coordinate
(2, 0) sits at distance exactly maxRange from the snapped reference point
(0, 0) — within range per the d > maxRange eviction/guard convention —
yet is not resident: the half-open loop -chunk_range..chunk_range never
enumerates the +x boundary. -/
theorem first_tick_residency_counterexample :
    snapCenter (0, 0) 1 = (0, 0) ∧
    distSqN (0, 0) (2, 0) ≤ 2 ^ 2 ∧
    assocFind (TerrainChunks.update_chunks (0, 0)
      (initState 1 2 [1, 1] fun _ => 0)).chunks (2, 0) = none ∧
    (TerrainChunks.update_chunks (0, 0)
      (initState 1 2 [1, 1] fun _ => 0)).channel = [] := by
  have hsnap : snapCenter (0, 0) 1 = (0, 0) := by norm_num [snapCenter]
  obtain ⟨hch, hnone, _⟩ :=
    first_tick_find (0, 0) 1 2 [1, 1] (fun _ => 0) (by decide)
  refine ⟨hsnap, by decide, ?_, hch⟩
  apply hnone
  rw [hsnap]
  decide

/-- C6 (amended): with the default configuration and reference point
(0, 0) on the empty store, the first tick runs all jobs synchronously
(they are all drained within the tick: the channel ends empty) and
populates every chunk coordinate (50i, 50j) within the 2000-unit radius
except the two boundary coordinates (2000, 0) and (0, 2000) excluded by
the half-open enumeration square; the chunk at (0, 0) has LOD index 0,
whose detail-table entry is resolution 75. -/
theorem first_tick_scenario_a (f : ℝ × ℝ → ℝ) :
    (∀ q : ℤ × ℤ, distSqN (0, 0) (q.1 * 50, q.2 * 50) ≤ 2000 ^ 2 →
      q ≠ (40, 0) → q ≠ (0, 40) →
      (assocFind (TerrainChunks.update_chunks (0, 0)
        (defaultState f)).chunks (q.1 * 50, q.2 * 50)).isSome) ∧
    (∃ m e, assocFind (TerrainChunks.update_chunks (0, 0)
        (defaultState f)).chunks (0, 0) =
      some { lod := 0, mesh := m, entity := e }) ∧
    ([75, 50, 25, 15, 10, 5, 3] : List ℕ).getD 0 0 = 75 ∧
    (TerrainChunks.update_chunks (0, 0) (defaultState f)).channel = [] := by
  obtain ⟨hch, hnone, hsome⟩ :=
    first_tick_find (0, 0) 50 2000 [75, 50, 25, 15, 10, 5, 3] f (by decide)
  have hsnap : snapCenter (0, 0) 50 = (0, 0) := by norm_num [snapCenter]
  have hrange : chunkRange 2000 50 = 40 := by decide
  refine ⟨?_, ?_, rfl, hch⟩
  · intro q hd h40a h40b
    have hdz : (2000 : ℤ) ^ 2 - ((0 - q.1 * 50) ^ 2 + (0 - q.2 * 50) ^ 2)
        = (2000 ^ 2 - distSqN (0, 0) (q.1 * 50, q.2 * 50) : ℕ) := by
      rw [Nat.cast_sub hd]
      rw [distSqN_int]
      push_cast
      ring
    have hsum : q.1 ^ 2 + q.2 ^ 2 ≤ 1600 := by
      have h0 : (0 : ℤ) ≤ 2000 ^ 2 - ((0 - q.1 * 50) ^ 2 + (0 - q.2 * 50) ^ 2) := by
        rw [hdz]
        positivity
      nlinarith
    have hq11 : q.1 ≤ 40 := by nlinarith [sq_nonneg q.2]
    have hq12 : -40 ≤ q.1 := by nlinarith [sq_nonneg q.2]
    have hq21 : q.2 ≤ 40 := by nlinarith [sq_nonneg q.1]
    have hq22 : -40 ≤ q.2 := by nlinarith [sq_nonneg q.1]
    have hq1lt : q.1 < 40 := by
      rcases lt_or_eq_of_le hq11 with h | h
      · exact h
      · exfalso
        have hz2 : q.2 ^ 2 ≤ 0 := by nlinarith
        have : q.2 = 0 := by nlinarith [sq_nonneg q.2]
        exact h40a (Prod.ext h this)
    have hq2lt : q.2 < 40 := by
      rcases lt_or_eq_of_le hq21 with h | h
      · exact h
      · exfalso
        have hz1 : q.1 ^ 2 ≤ 0 := by nlinarith
        have : q.1 = 0 := by nlinarith [sq_nonneg q.1]
        exact h40b (Prod.ext this h)
    have hmem : (q.1 * 50, q.2 * 50) ∈
        candidates (snapCenter (0, 0) 50) 50 2000 := by
      rw [hsnap, mem_candidates]
      refine ⟨q, ?_, ?_, hd⟩
      · rw [mem_coordOffsets, hrange]
        push_cast
        omega
      · unfold toCoord
        rw [Prod.ext_iff]
        dsimp
        constructor <;> push_cast <;> ring
    obtain ⟨m, e, hfind⟩ := hsome _ hmem
    show (assocFind (TerrainChunks.update_chunks (0, 0)
      (initState 50 2000 [75, 50, 25, 15, 10, 5, 3] f)).chunks
      (q.1 * 50, q.2 * 50)).isSome
    rw [hfind]
    rfl
  · have hmem0 : ((0 : ℤ), (0 : ℤ)) ∈
        candidates (snapCenter (0, 0) 50) 50 2000 := by
      rw [hsnap, mem_candidates]
      refine ⟨(0, 0), ?_, ?_, by decide⟩
      · rw [mem_coordOffsets, hrange]
        norm_num
      · unfold toCoord
        norm_num
    obtain ⟨m, e, hfind⟩ := hsome _ hmem0
    rw [hsnap] at hfind
    have hlod : lodOf (distSqN (0, 0) (0, 0)) 2000
        ([75, 50, 25, 15, 10, 5, 3] : List ℕ).length = 0 := by
      have hdz : distSqN ((0 : ℤ), (0 : ℤ)) (0, 0) = 0 := by decide
      rw [hdz]
      simp [lodOf]
    rw [hlod] at hfind
    exact ⟨m, e, hfind⟩

/-- Witness for C6: the chunk at (50, 0) is resident after the first
tick. -/
theorem first_tick_scenario_a_witness :
    (assocFind (TerrainChunks.update_chunks (0, 0)
      (defaultState fun _ => 0)).chunks
      (((1 : ℤ), (0 : ℤ)).1 * 50, ((1 : ℤ), (0 : ℤ)).2 * 50)).isSome :=
  (first_tick_scenario_a fun _ => 0).1 (1, 0) (by decide) (by decide)
    (by decide)

/-- C6 counterexample: (2000, 0) is a chunk-grid coordinate within the
2000-unit radius of the reference point (0, 0), yet the first tick with
the default configuration does not populate it: the half-open enumeration
square stops at offset +39, so the claim's "every chunk coordinate within
a 2000-unit radius" fails at the +x boundary. -/
theorem first_tick_scenario_a_counterexample :
    (∃ i j : ℤ, ((2000 : ℤ), (0 : ℤ)) = (i * 50, j * 50)) ∧
    distSqN (0, 0) (2000, 0) ≤ 2000 ^ 2 ∧
    assocFind (TerrainChunks.update_chunks (0, 0)
      (defaultState fun _ => 0)).chunks (2000, 0) = none := by
  refine ⟨⟨40, 0, by norm_num⟩, by decide, ?_⟩
  obtain ⟨hch, hnone, hsome⟩ := first_tick_find (0, 0) 50 2000
    [75, 50, 25, 15, 10, 5, 3] (fun _ => 0) (by decide)
  have hsnap : snapCenter (0, 0) 50 = (0, 0) := by norm_num [snapCenter]
  have hnotmem : ((2000 : ℤ), (0 : ℤ)) ∉
      candidates (snapCenter (0, 0) 50) 50 2000 := by
    rw [hsnap]
    intro hmem
    rw [mem_candidates] at hmem
    obtain ⟨o, ho, heq, _⟩ := hmem
    rw [mem_coordOffsets] at ho
    have hr : chunkRange 2000 50 = 40 := by decide
    rw [hr] at ho
    unfold toCoord at heq
    rw [Prod.ext_iff] at heq
    dsimp at heq
    obtain ⟨h1, h2⟩ := heq
    push_cast at h1 ho
    omega
  exact hnone _ hnotmem

/-- Witness for C7: the first stored normal of a concrete 2 × 2 height
map over the zero height function is a unit vector. -/
theorem generated_normals_unit_witness :
    (((HeightMap.generate (0, 0) 1 2 fun _ => 0).normals.getD 0 []).getD 0
      (0, 0, 1)).1 ^ 2 +
    (((HeightMap.generate (0, 0) 1 2 fun _ => 0).normals.getD 0 []).getD 0
      (0, 0, 1)).2.1 ^ 2 +
    (((HeightMap.generate (0, 0) 1 2 fun _ => 0).normals.getD 0 []).getD 0
      (0, 0, 1)).2.2 ^ 2 = 1 := by
  have hlen : (HeightMap.generate (0, 0) 1 2 fun _ => 0).normals.length
      = 2 := by
    simp [HeightMap.generate]
  have hrow : (HeightMap.generate (0, 0) 1 2 fun _ => 0).normals.getD 0 []
      ∈ (HeightMap.generate (0, 0) 1 2 fun _ => 0).normals :=
    getD_mem_of_lt _ _ _ (by omega)
  have hrlen : ((HeightMap.generate (0, 0) 1 2 fun _ => 0).normals.getD 0
      []).length = 2 := by
    simp [HeightMap.generate]
  exact generated_normals_unit (0, 0) 1 2 (fun _ => 0) _ hrow _
    (getD_mem_of_lt _ _ _ (by omega))
